import Mathlib

/-!
Verification of the order-reconciliation backend (Express + PostgreSQL).

The development shallowly embeds the `PUT /orders-by-number/:order_no`
handler of `src/firebase-connector.js` (order-line differ, delete /
update / insert phases, header broadcast, transaction orchestration),
the older variant of the same endpoint found in `src/unnamed/part_000`
(which carries the numeric / gst-range request validation), and the
`GET /api/orders/next-order-number` generator.

JavaScript values occurring in request payloads and table columns are
modelled by `Value`; JS truthiness and numeric coercion are modelled by
`jsTruthy`, `jsToNumber` and friends.  The `orders` table has a fixed
relational schema, modelled by the `Column` enumeration and rows as
total functions `Column → Value` together with a store-assigned `id`.
The SQL transaction is modelled by explicit state passing in
`Except String (List Row)`: a thrown error makes the handler return the
original store (the `catch` branch issues ROLLBACK).
-/

namespace Castolin

/-- A JSON-ish JavaScript value as it appears in request payloads and
table columns.  JS numbers are modelled by exact rationals. -/
inductive Value where
  | vnum (q : ℚ)
  | vstr (s : String)
  | vbool (b : Bool)
  | vnull
deriving DecidableEq, Repr

/-- JS truthiness of a value (`0`, `""`, `null`, `false` are falsy). -/
def jsTruthy : Value → Bool
  | .vnum q => q != 0
  | .vstr s => s != ""
  | .vbool b => b
  | .vnull => false

/-- Digits of a decimal string, as a natural number; `none` when the
character list is empty or contains a non-digit. -/
def decDigits (cs : List Char) : Option Nat :=
  if cs.isEmpty || !cs.all Char.isDigit then none
  else some (cs.foldl (fun a c => a * 10 + (c.toNat - 48)) 0)

/-- Whitespace trimming as JS `String.prototype.trim`, over the
character list. -/
def trimChars (cs : List Char) : List Char :=
  ((cs.dropWhile Char.isWhitespace).reverse.dropWhile Char.isWhitespace).reverse

/-- JS `s.trim()`. -/
def jsTrim (s : String) : String :=
  String.mk (trimChars s.toList)

/-- Splitting a character list on a separator character; mirrors JS
`String.prototype.split` with a one-character separator. -/
def splitOnChar (sep : Char) : List Char → List (List Char)
  | [] => [[]]
  | c :: cs =>
      let r := splitOnChar sep cs
      if c = sep then [] :: r
      else
        match r with
        | [] => [[c]]
        | g :: gs => (c :: g) :: gs

/-- JS `s.split(sep)` for a one-character separator. -/
def jsSplit (s : String) (sep : Char) : List String :=
  (splitOnChar sep s.toList).map (fun cs => String.mk cs)

/-- JS `ToNumber` on strings, restricted to plain decimal literals
(optional sign, digits, optional fractional part).  The empty or
all-whitespace string converts to `0`; anything unparsable is NaN,
modelled as `none`.  Hex and exponent literals are outside the inputs
this backend handles and are mapped to `none` as well. -/
def jsStringToNumber (s : String) : Option ℚ :=
  let t := trimChars s.toList
  if t.isEmpty then some 0
  else
    let (sign, u) : ℚ × List Char :=
      match t with
      | '-' :: rest => (-1, rest)
      | '+' :: rest => (1, rest)
      | _ => (1, t)
    match splitOnChar '.' u with
    | [ip] => (decDigits ip).map (fun n => sign * n)
    | [ip, fp] =>
        if ip.isEmpty && fp.isEmpty then none
        else
          let ipn : Option Nat := if ip.isEmpty then some 0 else decDigits ip
          let fpn : Option Nat := if fp.isEmpty then some 0 else decDigits fp
          match ipn, fpn with
          | some i, some f => some (sign * ((i : ℚ) + (f : ℚ) / ((10 : ℚ) ^ fp.length)))
          | _, _ => none
    | _ => none

/-- JS `ToNumber` coercion; `none` models NaN. -/
def jsToNumber : Value → Option ℚ
  | .vnum q => some q
  | .vstr s => jsStringToNumber s
  | .vbool b => some (if b then 1 else 0)
  | .vnull => some 0

/-- JS `isNaN(v)` (global isNaN, which coerces its argument). -/
def jsIsNaN (v : Value) : Bool :=
  (jsToNumber v).isNone

/-- JS `v < q` for a numeric right-hand side; comparisons against NaN
are false. -/
def jsLt (v : Value) (q : ℚ) : Bool :=
  match jsToNumber v with
  | some x => x < q
  | none => false

/-- JS `v > q` for a numeric right-hand side; comparisons against NaN
are false. -/
def jsGt (v : Value) (q : ℚ) : Bool :=
  match jsToNumber v with
  | some x => q < x
  | none => false

/-- The columns of the `orders` table touched by the reconciliation
endpoint (the full insert list of the handler). -/
inductive Column where
  | order_no | voucher_type | order_date | customer_code | customer_name
  | executive | role | status
  | item_code | item_name | hsn | gst | sgst | cgst | igst
  | delivery_date | delivery_mode | quantity | uom | rate | amount
  | net_rate | gross_amount | disc_percentage | disc_amount
  | spl_disc_percentage | spl_disc_amount
  | total_quantity | total_amount | total_amount_without_tax
  | total_sgst_amount | total_cgst_amount | total_igst_amount
  | remarks | transporter_name
deriving DecidableEq, Fintype, Repr

/-- Map a client-supplied field name to the table column it denotes.
Dynamic `SET` clauses are built from such names; names that denote no
column are only ever used after allowlist filtering. -/
def colOfString : String → Option Column
  | "order_no" => some .order_no
  | "voucher_type" => some .voucher_type
  | "order_date" => some .order_date
  | "customer_code" => some .customer_code
  | "customer_name" => some .customer_name
  | "executive" => some .executive
  | "role" => some .role
  | "status" => some .status
  | "item_code" => some .item_code
  | "item_name" => some .item_name
  | "hsn" => some .hsn
  | "gst" => some .gst
  | "sgst" => some .sgst
  | "cgst" => some .cgst
  | "igst" => some .igst
  | "delivery_date" => some .delivery_date
  | "delivery_mode" => some .delivery_mode
  | "quantity" => some .quantity
  | "uom" => some .uom
  | "rate" => some .rate
  | "amount" => some .amount
  | "net_rate" => some .net_rate
  | "gross_amount" => some .gross_amount
  | "disc_percentage" => some .disc_percentage
  | "disc_amount" => some .disc_amount
  | "spl_disc_percentage" => some .spl_disc_percentage
  | "spl_disc_amount" => some .spl_disc_amount
  | "total_quantity" => some .total_quantity
  | "total_amount" => some .total_amount
  | "total_amount_without_tax" => some .total_amount_without_tax
  | "total_sgst_amount" => some .total_sgst_amount
  | "total_cgst_amount" => some .total_cgst_amount
  | "total_igst_amount" => some .total_igst_amount
  | "remarks" => some .remarks
  | "transporter_name" => some .transporter_name
  | _ => none

/-- A persisted row of the `orders` table: the store-assigned primary
key plus a value for every column. -/
@[ext]
structure Row where
  id : Int
  cols : Column → Value

instance : DecidableEq Row := fun a b =>
  decidable_of_iff (a.id = b.id ∧ a.cols = b.cols) (Row.ext_iff).symm

/-- An incoming line descriptor of the request body, after the JS
destructuring `{ id, _deleted, ...fields }`: the optional numeric `id`,
the truthiness of the `_deleted` flag, and the remaining keys in
insertion order. -/
structure Descr where
  id : Option Int
  deleted : Bool
  fields : List (String × Value)
deriving DecidableEq, Repr

/-- JS truthiness of `item.id` (absent or `0` is falsy). -/
def truthyId (d : Descr) : Bool :=
  match d.id with
  | some n => n != 0
  | none => false

/-- The sort key `a.id || 0` used by the handler's initial
`[...req.body].sort((a, b) => (a.id || 0) - (b.id || 0))`. -/
def idKey (d : Descr) : Int := d.id.getD 0

instance descrLeDecidable : DecidableRel (fun a b : Descr => idKey a ≤ idKey b) :=
  fun a b => Int.decLe _ _

instance descrLeTotal : IsTotal Descr (fun a b => idKey a ≤ idKey b) :=
  ⟨fun a b => Int.le_total (idKey a) (idKey b)⟩

instance descrLeTrans : IsTrans Descr (fun a b => idKey a ≤ idKey b) :=
  ⟨fun _ _ _ => Int.le_trans⟩

/-- The handler's initial stable sort of the request body by ascending
id (JS `Array.prototype.sort` is stable; insertion sort realises the
same stable order for the consistent comparator `(a.id||0)-(b.id||0)`). -/
def sortById (l : List Descr) : List Descr :=
  l.insertionSort (fun a b => idKey a ≤ idKey b)

instance rowLeDecidable : DecidableRel (fun a b : Row => a.id ≤ b.id) :=
  fun a b => Int.decLe _ _

/-- The `ORDER BY id` of the final read-back. -/
def sortRowsById (l : List Row) : List Row :=
  l.insertionSort (fun a b => a.id ≤ b.id)

/-- New rows (no truthy id and not marked for deletion). -/
def itemsToInsertOf (allItems : List Descr) : List Descr :=
  allItems.filter (fun item => !truthyId item && !item.deleted)

/-- Existing rows with an id and not marked for deletion. -/
def itemsToUpdateOf (allItems : List Descr) : List Descr :=
  allItems.filter (fun item => truthyId item && !item.deleted)

/-- Existing rows marked for deletion. -/
def itemsToDeleteOf (allItems : List Descr) : List Descr :=
  allItems.filter (fun item => item.deleted && truthyId item)

/-- The `commonOrderDetails` object: one value for each of the fourteen
header fields shared by all lines of an order. -/
structure Common where
  voucher_type : Value
  order_date : Value
  customer_code : Value
  customer_name : Value
  executive : Value
  role : Value
  status : Value
  total_quantity : Value
  total_amount : Value
  total_amount_without_tax : Value
  total_sgst_amount : Value
  total_cgst_amount : Value
  total_igst_amount : Value
  remarks : Value
deriving DecidableEq, Repr

/-- The handler's `defaultOrderDetails` table (`today` stands for
`new Date().toISOString().split('T')[0]`). -/
def defaultOrderDetails (today : String) : Common where
  voucher_type := .vstr "Sales Order"
  order_date := .vstr today
  customer_code := .vstr ""
  customer_name := .vstr ""
  executive := .vstr ""
  role := .vstr ""
  status := .vstr "pending"
  total_quantity := .vnum 0
  total_amount := .vnum 0
  total_amount_without_tax := .vnum 0
  total_sgst_amount := .vnum 0
  total_cgst_amount := .vnum 0
  total_igst_amount := .vnum 0
  remarks := .vstr ""

/-- Overriding the base header values with every header field the
source descriptor defines (`if (priorityItem[field] !== undefined)`). -/
def commonFrom (d : Descr) (base : Common) : Common where
  voucher_type := (d.fields.lookup "voucher_type").getD base.voucher_type
  order_date := (d.fields.lookup "order_date").getD base.order_date
  customer_code := (d.fields.lookup "customer_code").getD base.customer_code
  customer_name := (d.fields.lookup "customer_name").getD base.customer_name
  executive := (d.fields.lookup "executive").getD base.executive
  role := (d.fields.lookup "role").getD base.role
  status := (d.fields.lookup "status").getD base.status
  total_quantity := (d.fields.lookup "total_quantity").getD base.total_quantity
  total_amount := (d.fields.lookup "total_amount").getD base.total_amount
  total_amount_without_tax :=
    (d.fields.lookup "total_amount_without_tax").getD base.total_amount_without_tax
  total_sgst_amount := (d.fields.lookup "total_sgst_amount").getD base.total_sgst_amount
  total_cgst_amount := (d.fields.lookup "total_cgst_amount").getD base.total_cgst_amount
  total_igst_amount := (d.fields.lookup "total_igst_amount").getD base.total_igst_amount
  remarks := (d.fields.lookup "remarks").getD base.remarks

/-- Source selection and defaulting over the non-deleted items
(`validItems`): prefer the first with a truthy id
(`validItems.find(item => item.id)`), falling back to `validItems[0]`;
fields the source does not define keep the defaults. -/
def resolveCommonAux (validItems : List Descr) (today : String) : Common :=
  match validItems with
  | [] => defaultOrderDetails today
  | v :: rest =>
      commonFrom (((v :: rest).find? (fun item => truthyId item)).getD v)
        (defaultOrderDetails today)

/-- The handler's header resolution over the (already sorted) batch. -/
def resolveCommon (allItems : List Descr) (today : String) : Common :=
  resolveCommonAux (allItems.filter (fun item => !item.deleted)) today

/-- The values the header broadcast assigns, per column (`none` for
columns the broadcast's SET list does not mention). -/
def headerVal (cm : Common) : Column → Option Value
  | .voucher_type => some cm.voucher_type
  | .order_date => some cm.order_date
  | .customer_code => some cm.customer_code
  | .customer_name => some cm.customer_name
  | .executive => some cm.executive
  | .role => some cm.role
  | .status => some cm.status
  | .total_quantity => some cm.total_quantity
  | .total_amount => some cm.total_amount
  | .total_amount_without_tax => some cm.total_amount_without_tax
  | .total_sgst_amount => some cm.total_sgst_amount
  | .total_cgst_amount => some cm.total_cgst_amount
  | .total_igst_amount => some cm.total_igst_amount
  | .remarks => some cm.remarks
  | _ => none

/-- Applying the header broadcast's SET list to one row. -/
def applyCommon (r : Row) (cm : Common) : Row :=
  { r with cols := fun c => (headerVal cm c).getD (r.cols c) }

/-- The fourteen header-field values carried by a row, in the order of
the broadcast's SET list. -/
def rowHeader (r : Row) : List Value :=
  [r.cols .voucher_type, r.cols .order_date, r.cols .customer_code,
   r.cols .customer_name, r.cols .executive, r.cols .role, r.cols .status,
   r.cols .total_quantity, r.cols .total_amount,
   r.cols .total_amount_without_tax, r.cols .total_sgst_amount,
   r.cols .total_cgst_amount, r.cols .total_igst_amount, r.cols .remarks]

/-- The update phase's field allowlist of the main handler. -/
def allowedFields : List String :=
  ["status", "disc_percentage", "disc_amount", "spl_disc_percentage",
   "spl_disc_amount", "net_rate", "gross_amount", "total_quantity",
   "total_amount", "total_amount_without_tax", "remarks", "quantity",
   "delivery_date", "delivery_mode", "transporter_name",
   "total_sgst_amount", "total_cgst_amount", "total_igst_amount",
   "sgst", "cgst", "igst", "gst", "hsn", "rate", "amount", "uom",
   "item_code", "item_name", "order_date"]

/-- One dynamic `SET name = value` assignment. -/
def setCol (r : Row) (k : String) (v : Value) : Row :=
  match colOfString k with
  | some c => { r with cols := Function.update r.cols c v }
  | none => r

/-- A dynamic `SET` clause applied left to right. -/
def setCols (r : Row) (fs : List (String × Value)) : Row :=
  fs.foldl (fun r kv => setCol r kv.1 kv.2) r

/-- Allowlist filtering of a descriptor's fields
(`allowedFields.includes(key)`); unrecognized keys are dropped. -/
def filterAllowed (fs : List (String × Value)) : List (String × Value) :=
  fs.filter (fun kv => allowedFields.contains kv.1)

/-- The per-item ownership check of the update phase (`itemCheck`),
performed only when the order already exists: the id must denote a row
and that row's order_no must equal the requested one. -/
def updateItemCheck (s : List Row) (o : String) (orderExists : Bool) (item : Descr) :
    Option String :=
  if orderExists then
    match s.find? (fun r => r.id == idKey item) with
    | none => some ("Item with ID " ++ toString (idKey item) ++ " does not exist")
    | some r =>
        if r.cols .order_no != Value.vstr o then
          some ("Item " ++ toString (idKey item) ++ " belongs to another order, not " ++ o)
        else none
  else none

/-- One targeted `UPDATE ... WHERE id = $k AND order_no = $n`.  Updates
with no allowed fields are skipped (`continue`); an update matching zero
rows is a hard error.  (The source issues the UPDATE and then inspects
`rowCount`; raising before the zero-row write is state-equivalent.) -/
def updateOne (s : List Row) (o : String) (item : Descr) : Except String (List Row) :=
  let filteredFields := filterAllowed item.fields
  if filteredFields.isEmpty then .ok s
  else
    let hits := (s.filter (fun r => r.id == idKey item && r.cols .order_no == Value.vstr o)).length
    if hits == 0 then
      .error ("No record found for id " ++ toString (idKey item) ++ " in order " ++ o)
    else
      .ok (s.map (fun r =>
        if r.id == idKey item && r.cols .order_no == Value.vstr o then
          setCols r filteredFields
        else r))

/-- The update phase: items in ascending-id order, each ownership
checked (when the order exists) and then applied. -/
def updatePhase (o : String) (orderExists : Bool) (s : List Row) :
    List Descr → Except String (List Row)
  | [] => .ok s
  | item :: rest =>
      match updateItemCheck s o orderExists item with
      | some e => .error e
      | none =>
          match updateOne s o item with
          | .error e => .error e
          | .ok s1 => updatePhase o orderExists s1 rest

/-- The delete phase: when the order exists, every id to delete must
match a row of this order (`verifyResult.rows.length !==
deleteIds.length`); then `DELETE ... WHERE id = ANY($1) AND order_no = $2`. -/
def deletePhase (s : List Row) (o : String) (orderExists : Bool)
    (itemsToDelete : List Descr) : Except String (List Row) :=
  if itemsToDelete.isEmpty then .ok s
  else
    let deleteIds := itemsToDelete.map idKey
    if orderExists &&
        ((s.filter (fun r => deleteIds.contains r.id && r.cols .order_no == Value.vstr o)).length
          != deleteIds.length) then
      .error ("Cannot delete items: they do not belong to order " ++ o)
    else
      .ok (s.filter (fun r => !(deleteIds.contains r.id && r.cols .order_no == Value.vstr o)))

/-- JS `x || d` defaulting used when building an insert row. -/
def jsOr (v : Option Value) (d : Value) : Value :=
  match v with
  | some x => if jsTruthy x then x else d
  | none => d

/-- The row inserted for one new item: header fields from the resolved
common details, line fields from the descriptor with `|| default`
fallbacks, and the requested order number. -/
def buildInsertRow (o : String) (cm : Common) (nid : Int) (item : Descr) : Row where
  id := nid
  cols := fun c =>
    match c with
    | .order_no => .vstr o
    | .voucher_type => cm.voucher_type
    | .order_date => cm.order_date
    | .customer_code => cm.customer_code
    | .customer_name => cm.customer_name
    | .executive => cm.executive
    | .role => cm.role
    | .status => cm.status
    | .item_code => jsOr (item.fields.lookup "item_code") (.vstr "")
    | .item_name => jsOr (item.fields.lookup "item_name") (.vstr "")
    | .hsn => jsOr (item.fields.lookup "hsn") (.vstr "")
    | .gst => jsOr (item.fields.lookup "gst") (.vnum 0)
    | .sgst => jsOr (item.fields.lookup "sgst") (.vnum 0)
    | .cgst => jsOr (item.fields.lookup "cgst") (.vnum 0)
    | .igst => jsOr (item.fields.lookup "igst") (.vnum 0)
    | .delivery_date => jsOr (item.fields.lookup "delivery_date") .vnull
    | .delivery_mode => jsOr (item.fields.lookup "delivery_mode") (.vstr "")
    | .quantity => jsOr (item.fields.lookup "quantity") (.vnum 0)
    | .uom => jsOr (item.fields.lookup "uom") (.vstr "")
    | .rate => jsOr (item.fields.lookup "rate") (.vnum 0)
    | .amount => jsOr (item.fields.lookup "amount") (.vnum 0)
    | .net_rate => jsOr (item.fields.lookup "net_rate") (.vnum 0)
    | .gross_amount => jsOr (item.fields.lookup "gross_amount") (.vnum 0)
    | .disc_percentage => jsOr (item.fields.lookup "disc_percentage") (.vnum 0)
    | .disc_amount => jsOr (item.fields.lookup "disc_amount") (.vnum 0)
    | .spl_disc_percentage => jsOr (item.fields.lookup "spl_disc_percentage") (.vnum 0)
    | .spl_disc_amount => jsOr (item.fields.lookup "spl_disc_amount") (.vnum 0)
    | .total_quantity => cm.total_quantity
    | .total_amount => cm.total_amount
    | .total_amount_without_tax => cm.total_amount_without_tax
    | .total_sgst_amount => cm.total_sgst_amount
    | .total_cgst_amount => cm.total_cgst_amount
    | .total_igst_amount => cm.total_igst_amount
    | .remarks => cm.remarks
    | .transporter_name => jsOr (item.fields.lookup "transporter_name") (.vstr "")

/-- The next primary key the store assigns (`RETURNING id` of a serial
key, modelled as one past the maximum id in use). -/
def nextFreeId (s : List Row) : Int :=
  (s.map (fun r => r.id)).foldl max 0 + 1

/-- The rows inserted for the given items, with consecutively assigned
ids. -/
def insertRows (o : String) (cm : Common) (nid : Int) : List Descr → List Row
  | [] => []
  | item :: rest => buildInsertRow o cm nid item :: insertRows o cm (nid + 1) rest

/-- The insert phase: append one freshly keyed row per new item. -/
def insertPhase (s : List Row) (o : String) (cm : Common) (items : List Descr) : List Row :=
  s ++ insertRows o cm (nextFreeId s) items

/-- The effect of the header broadcast on one row: rows of the order
get the resolved header values, all other rows are untouched. -/
def broadcastRow (o : String) (cm : Common) (r : Row) : Row :=
  if r.cols .order_no == Value.vstr o then applyCommon r cm else r

/-- The header broadcast
(`UPDATE orders SET ...fourteen header fields... WHERE order_no = $15`). -/
def updateCommonDetails (s : List Row) (o : String) (cm : Common) : List Row :=
  s.map (broadcastRow o cm)

/-- The up-front existence check
(`SELECT COUNT(*) ... WHERE order_no = $1` compared against zero). -/
def orderExists (store : List Row) (o : String) : Bool :=
  store.any (fun r => r.cols .order_no == Value.vstr o)

/-- The body of the endpoint's `try` block, between BEGIN and COMMIT:
existence check, delete phase, update phase, insert phase, header
broadcast.  `.error` stands for a thrown exception. -/
def runTransaction (store : List Row) (o : String) (cm : Common)
    (ins upd del : List Descr) : Except String (List Row) :=
  if !(orderExists store o) && ins.isEmpty then
    .error ("Order " ++ o ++ " does not exist and no new items provided")
  else
    match deletePhase store o (orderExists store o) del with
    | .error e => .error e
    | .ok s1 =>
        match updatePhase o (orderExists store o) s1 upd with
        | .error e => .error e
        | .ok s2 =>
            .ok (if orderExists store o || !ins.isEmpty then
                  updateCommonDetails (insertPhase s2 o cm ins) o cm
                 else insertPhase s2 o cm ins)

/-- The `operations` object of the success response. -/
structure Operations where
  inserted : Nat
  updated : Nat
  deleted : Nat
  total : Nat
deriving DecidableEq, Repr

/-- The `order_details` object of the success response. -/
structure OrderDetails where
  order_no : String
  customer_name : Value
  total_amount : Value
  status : Value
deriving DecidableEq, Repr

/-- The success payload of the endpoint. -/
structure SuccessBody where
  data : List Row
  operations : Operations
  order_details : OrderDetails
deriving DecidableEq

/-- The endpoint's HTTP outcome: a 400 validation rejection, a 500 after
rollback, or the 200 success payload. -/
inductive HandlerResult where
  | badRequest (error : String)
  | serverError (message : String)
  | ok (body : SuccessBody)
deriving DecidableEq

/-- Whether the outcome is the success payload. -/
def HandlerResult.isOk : HandlerResult → Bool
  | .ok _ => true
  | _ => false

/-- The `PUT /orders-by-number/:order_no` handler of
`src/firebase-connector.js`, as a function from the store and request to
the HTTP outcome and the store after commit or rollback. -/
def putOrdersByNumber (store : List Row) (o : String) (body : List Descr)
    (today : String) : HandlerResult × List Row :=
  let allItems := sortById body
  if jsTrim o == "" then (.badRequest "Order Number is required", store)
  else if allItems.isEmpty then (.badRequest "No data provided", store)
  else
    let ins := itemsToInsertOf allItems
    let upd := itemsToUpdateOf allItems
    let del := itemsToDeleteOf allItems
    let cm := resolveCommon allItems today
    match runTransaction store o cm ins upd del with
    | .error e => (.serverError e, store)
    | .ok s2 =>
        let finalRows := sortRowsById (s2.filter (fun r => r.cols .order_no == Value.vstr o))
        (.ok { data := finalRows
               operations := { inserted := ins.length, updated := upd.length,
                               deleted := del.length, total := finalRows.length }
               order_details := { order_no := o, customer_name := cm.customer_name,
                                  total_amount := cm.total_amount, status := cm.status } },
         s2)

/-- Reference source selection, following the claim's words: the first
non-deleted descriptor that carries a persisted id, or, if none carries
an id, the first non-deleted descriptor. -/
def specSource (l : List Descr) : Option Descr :=
  match l.find? (fun d => !d.deleted && truthyId d) with
  | some d => some d
  | none => l.find? (fun d => !d.deleted)

/-- Reference default table, following the claim's words: status a
pending value, textual fields the empty string, numeric totals zero, the
date the current date. -/
def specDefaults (today : String) : Common where
  voucher_type := .vstr ""
  order_date := .vstr today
  customer_code := .vstr ""
  customer_name := .vstr ""
  executive := .vstr ""
  role := .vstr ""
  status := .vstr "pending"
  total_quantity := .vnum 0
  total_amount := .vnum 0
  total_amount_without_tax := .vnum 0
  total_sgst_amount := .vnum 0
  total_cgst_amount := .vnum 0
  total_igst_amount := .vnum 0
  remarks := .vstr ""

/-- The claim's reference definition of header resolution: source per
`specSource`, absent fields from the claimed default table. -/
def resolveCommonSpec (l : List Descr) (today : String) : Common :=
  match specSource l with
  | none => specDefaults today
  | some d => commonFrom d (specDefaults today)

/-- The reference definition with the two corrections the code forces:
the source default table (voucher_type defaults to "Sales Order"), to be
applied to the id-sorted batch. -/
def resolveCommonSpecFixed (l : List Descr) (today : String) : Common :=
  match specSource l with
  | none => defaultOrderDetails today
  | some d => commonFrom d (defaultOrderDetails today)

/-! The older variant of the endpoint, from `src/unnamed/part_000`: it
validates the batch (numeric fields, gst range) before connecting to the
store, verifies all ids up front, and supports only updates and
deletions. -/

/-- The numeric fields the part_000 validation checks with `isNaN`. -/
def p0NumericFields : List String :=
  ["disc_percentage", "disc_amount", "spl_disc_percentage", "spl_disc_amount",
   "net_rate", "gross_amount", "total_quantity", "total_amount", "quantity",
   "total_sgst_amount", "total_cgst_amount", "total_igst_amount",
   "total_amount_without_tax", "sgst", "cgst", "igst", "gst"]

/-- The part_000 update allowlist (no item_code / item_name /
order_date). -/
def p0AllowedFields : List String :=
  ["status", "disc_percentage", "disc_amount", "spl_disc_percentage",
   "spl_disc_amount", "net_rate", "gross_amount", "total_quantity",
   "total_amount", "total_amount_without_tax", "remarks", "quantity",
   "delivery_date", "delivery_mode", "transporter_name",
   "total_sgst_amount", "total_cgst_amount", "total_igst_amount",
   "sgst", "cgst", "igst", "gst", "hsn", "rate", "amount", "uom"]

/-- The validation messages one item contributes (part_000 lines
718-754).  Deletion items only need a truthy numeric id; update items
need a truthy id, numeric values in every defined numeric field, and a
gst within 0..100. -/
def p0ValidateItem (i : Nat) (u : Descr) : List String :=
  if u.deleted then
    if truthyId u then []
    else ["Delete " ++ toString i ++ ": Valid numeric Order ID is required"]
  else
    (if truthyId u then []
     else ["Update " ++ toString i ++ ": Valid numeric Order ID is required"]) ++
    (p0NumericFields.filterMap (fun f =>
      match u.fields.lookup f with
      | some v =>
          if jsIsNaN v then some ("Update " ++ toString i ++ ": " ++ f ++ " must be a number")
          else none
      | none => none)) ++
    (match u.fields.lookup "gst" with
     | some v =>
         if jsLt v 0 || jsGt v 100 then
           ["Update " ++ toString i ++ ": gst must be between 0 and 100"]
         else []
     | none => [])

/-- The `updates.forEach((update, index) => ...)` accumulation, from a
given starting index. -/
def p0ValidationErrorsFrom (i : Nat) : List Descr → List String
  | [] => []
  | u :: rest => p0ValidateItem i u ++ p0ValidationErrorsFrom (i + 1) rest

/-- All validation errors of a batch, in item order. -/
def p0ValidationErrors (updates : List Descr) : List String :=
  p0ValidationErrorsFrom 0 updates

/-- The up-front ownership verification of part_000: every id of the
batch must match a row of the requested order. -/
def p0VerifyIds (s : List Row) (o : String) (updates : List Descr) : Option String :=
  let allOrderIds := updates.map idKey
  if (s.filter (fun r => allOrderIds.contains r.id && r.cols .order_no == Value.vstr o)).length
      != allOrderIds.length then
    some ("Some order IDs do not belong to order number " ++ o ++ " or do not exist")
  else none

/-- The part_000 delete step (no existence guard; part_000 always
verified the ids up front). -/
def p0Delete (s : List Row) (o : String) (itemsToDelete : List Descr) : List Row :=
  if itemsToDelete.isEmpty then s
  else
    let deleteIds := itemsToDelete.map idKey
    s.filter (fun r => !(deleteIds.contains r.id && r.cols .order_no == Value.vstr o))

/-- One part_000 update: allowlist filter, skip-if-empty, zero-row hard
failure. -/
def p0UpdateOne (s : List Row) (o : String) (item : Descr) : Except String (List Row) :=
  let filteredFields := item.fields.filter (fun kv => p0AllowedFields.contains kv.1)
  if filteredFields.isEmpty then .ok s
  else
    let hits := (s.filter (fun r => r.id == idKey item && r.cols .order_no == Value.vstr o)).length
    if hits == 0 then
      .error ("No record found for id " ++ toString (idKey item) ++ " in order " ++ o)
    else
      .ok (s.map (fun r =>
        if r.id == idKey item && r.cols .order_no == Value.vstr o then
          setCols r filteredFields
        else r))

/-- The part_000 update loop. -/
def p0UpdateLoop (o : String) (s : List Row) : List Descr → Except String (List Row)
  | [] => .ok s
  | item :: rest =>
      match p0UpdateOne s o item with
      | .error e => .error e
      | .ok s1 => p0UpdateLoop o s1 rest

/-- The part_000 transaction body: verify all ids, delete, update. -/
def p0Transaction (store : List Row) (o : String) (updates : List Descr) :
    Except String (List Row) :=
  match p0VerifyIds store o updates with
  | some e => .error e
  | none =>
      let itemsToDelete := updates.filter (fun item => item.deleted && truthyId item)
      let itemsToUpdate := updates.filter (fun item => !item.deleted)
      let s1 := p0Delete store o itemsToDelete
      p0UpdateLoop o s1 itemsToUpdate

/-- The HTTP outcome of the part_000 endpoint. -/
inductive P0Result where
  | badRequest (error : String) (details : List String)
  | errorResp (details : String)
  | ok (data : List Row)
deriving DecidableEq

/-- Whether the part_000 outcome is a 400 validation rejection. -/
def P0Result.isBadRequest : P0Result → Bool
  | .badRequest _ _ => true
  | _ => false

/-- The `PUT /orders-by-number/:order_no` handler of
`src/unnamed/part_000`.  The boolean of the result records whether a
store connection/transaction was opened; validation rejections happen
before `pool.connect()`. -/
def p0PutOrdersByNumber (store : List Row) (o : String) (body : List Descr) :
    P0Result × List Row × Bool :=
  let updates := sortById body
  if jsTrim o == "" then (.badRequest "Order Number is required" [], store, false)
  else if updates.isEmpty then (.badRequest "No update data provided" [], store, false)
  else
    let validationErrors := p0ValidationErrors updates
    if !validationErrors.isEmpty then
      (.badRequest "Validation failed" validationErrors, store, false)
    else
      match p0Transaction store o updates with
      | .error e => (.errorResp e, store, true)
      | .ok s2 =>
          (.ok (sortRowsById (s2.filter (fun r => r.cols .order_no == Value.vstr o))), s2, true)

/-! The order-number generator, `GET /api/orders/next-order-number`. -/

/-- A calendar date as the JS code reads it (`getDate()`,
`getMonth() + 1`, `getFullYear()`). -/
structure JsDate where
  day : Nat
  month : Nat
  year : Nat
deriving DecidableEq, Repr

/-- JS `String.prototype.padStart(w, c)`. -/
def jsPadStart (s : String) (w : Nat) (c : Char) : String :=
  if s.length < w then String.mk (List.replicate (w - s.length) c) ++ s else s

/-- JS `parseInt` on the sequence component: leading decimal digits
after trimming; `none` models NaN. -/
def jsParseIntNat (s : String) : Option Nat :=
  let ds := (s.toList.dropWhile Char.isWhitespace).takeWhile Char.isDigit
  if ds.isEmpty then none
  else some (ds.foldl (fun a c => a * 10 + (c.toNat - 48)) 0)

/-- Today's `DD-MM-YY` string as the generator builds it. -/
def currentDateStr (t : JsDate) : String :=
  jsPadStart (toString t.day) 2 '0' ++ "-" ++ jsPadStart (toString t.month) 2 '0' ++ "-" ++
    String.mk ((toString t.year).toList.drop ((toString t.year).toList.length - 2))

/-- The next-order-number generator: given the latest persisted `SQ-`
order number (if any) and today's date, split the latest on `-`, and if
its date component equals today's `DD-MM-YY`, increment the parsed
sequence and re-pad to 4 digits, else restart at `0001`.  A missing part
reads as the string "undefined" (JS template-string coercion); an
unparsable sequence yields the JS `"NaN"` padded. -/
def nextOrderNumber (latestOrderNo : Option String) (t : JsDate) : String :=
  let currentDate := currentDateStr t
  match latestOrderNo with
  | none => "SQ-" ++ currentDate ++ "-" ++ "0001"
  | some ono =>
      let parts := jsSplit ono '-'
      let lastDate := parts.getD 1 "undefined" ++ "-" ++ parts.getD 2 "undefined" ++ "-" ++
        parts.getD 3 "undefined"
      let nextSequence :=
        if lastDate == currentDate then
          match jsParseIntNat (parts.getD 4 "undefined") with
          | some n => jsPadStart (toString (n + 1)) 4 '0'
          | none => jsPadStart "NaN" 4 '0'
        else "0001"
      "SQ-" ++ currentDate ++ "-" ++ nextSequence

/-! Proof-side helper functions: the per-row view of the update phase
and of dynamic `SET` clauses. -/

/-- The part of a row the phases' predicates inspect: its id and its
order number. -/
def skel (r : Row) : Int × Value := (r.id, r.cols .order_no)

/-- The last value a dynamic `SET` list assigns to a column, if any. -/
def lastAssign : List (String × Value) → Column → Option Value
  | [], _ => none
  | kv :: fs, c =>
      match lastAssign fs c with
      | some v => some v
      | none => if colOfString kv.1 = some c then some kv.2 else none

/-- The effect of one update item on one row: rows whose id and order
number match receive the item's allowed fields, others are untouched
(and items with no allowed fields are skipped). -/
def rowStep (o : String) (item : Descr) (r : Row) : Row :=
  if (filterAllowed item.fields).isEmpty then r
  else if r.id == idKey item && r.cols .order_no == Value.vstr o then
    setCols r (filterAllowed item.fields)
  else r

/-- The effect of the whole update phase on one row. -/
def rowUpdate (o : String) (items : List Descr) (r : Row) : Row :=
  items.foldl (fun r item => rowStep o item r) r

/-- The last value the update phase assigns to a given column of a row
with the given id (among items that are applied, i.e. have allowed
fields). -/
def lastAssignRow (i : Int) : List Descr → Column → Option Value
  | [], _ => none
  | item :: rest, c =>
      match lastAssignRow i rest c with
      | some v => some v
      | none =>
          if !(filterAllowed item.fields).isEmpty && i == idKey item then
            lastAssign (filterAllowed item.fields) c
          else none

/-- The fourteen resolved header values, in broadcast SET order. -/
def commonHeader (cm : Common) : List Value :=
  [cm.voucher_type, cm.order_date, cm.customer_code, cm.customer_name,
   cm.executive, cm.role, cm.status, cm.total_quantity, cm.total_amount,
   cm.total_amount_without_tax, cm.total_sgst_amount, cm.total_cgst_amount,
   cm.total_igst_amount, cm.remarks]

/-! Concrete sample data for witnesses and counterexamples. -/

/-- A row of order "A" with the given id and item code, all other
columns NULL. -/
def sampleRowA (i : Int) (code : String) : Row where
  id := i
  cols := fun c =>
    match c with
    | .order_no => .vstr "A"
    | .item_code => .vstr code
    | _ => .vnull

/-- The row `sampleRowA` becomes after a reconciliation that resolved
the given status: headers are the resolved defaults, the item code and
order number survive. -/
def sampleRowAOut (i : Int) (code st : String) : Row where
  id := i
  cols := fun c =>
    match c with
    | .order_no => .vstr "A"
    | .item_code => .vstr code
    | .voucher_type => .vstr "Sales Order"
    | .order_date => .vstr "2024-06-01"
    | .customer_code => .vstr ""
    | .customer_name => .vstr ""
    | .executive => .vstr ""
    | .role => .vstr ""
    | .status => .vstr st
    | .total_quantity => .vnum 0
    | .total_amount => .vnum 0
    | .total_amount_without_tax => .vnum 0
    | .total_sgst_amount => .vnum 0
    | .total_cgst_amount => .vnum 0
    | .total_igst_amount => .vnum 0
    | .remarks => .vstr ""
    | _ => .vnull

/-- A batch whose two update descriptors carry conflicting header
values and arrive in descending id order. -/
def c5Batch : List Descr :=
  [⟨some 5, false, [("customer_name", Value.vstr "B")]⟩,
   ⟨some 3, false, [("customer_name", Value.vstr "A")]⟩]

/-- A store with rows 3 and 5 of order "A". -/
def c5Store : List Row := [sampleRowA 3 "P", sampleRowA 5 "Q"]

/-- A row with id 5 belonging to order "B", all other columns NULL. -/
def sampleRowOther : Row where
  id := 5
  cols := fun c =>
    match c with
    | .order_no => .vstr "B"
    | _ => .vnull

/-! Basic lemmas about the embedding. -/

theorem mem_sortById {l : List Descr} {d : Descr} : d ∈ sortById l ↔ d ∈ l :=
  List.mem_insertionSort _

theorem length_sortById (l : List Descr) : (sortById l).length = l.length :=
  List.length_insertionSort _ l

theorem sortById_isEmpty_iff {l : List Descr} : (sortById l).isEmpty = true ↔ l = [] := by
  rw [List.isEmpty_iff_length_eq_zero, length_sortById, List.length_eq_zero]

/-- C1 helper: the success shape of the handler. -/
theorem putOrdersByNumber_ok {store : List Row} {o : String} {body : List Descr}
    {today : String} (h : (putOrdersByNumber store o body today).1.isOk = true) :
    runTransaction store o (resolveCommon (sortById body) today)
        (itemsToInsertOf (sortById body)) (itemsToUpdateOf (sortById body))
        (itemsToDeleteOf (sortById body))
      = .ok (putOrdersByNumber store o body today).2 ∧
    ((jsTrim o == "") = false ∧ (sortById body).isEmpty = false) := by
  by_cases h0 : (jsTrim o == "") = true
  · simp [putOrdersByNumber, h0, HandlerResult.isOk] at h
  · by_cases h1 : (sortById body).isEmpty = true
    · simp [putOrdersByNumber, h0, h1, HandlerResult.isOk] at h
    · cases hrt : runTransaction store o (resolveCommon (sortById body) today)
          (itemsToInsertOf (sortById body)) (itemsToUpdateOf (sortById body))
          (itemsToDeleteOf (sortById body)) with
      | error e => simp [putOrdersByNumber, h0, h1, hrt, HandlerResult.isOk] at h
      | ok s2 =>
          simp only [Bool.not_eq_true] at h0 h1
          refine ⟨?_, h0, h1⟩
          simp [putOrdersByNumber, h0, h1, hrt]

/-- The success shape of the transaction body: no early-exit error, the
delete and update phases succeed, and the header broadcast is applied to
the store left by the insert phase. -/
theorem runTransaction_ok {store : List Row} {o : String} {cm : Common}
    {ins upd del : List Descr} {s2 : List Row}
    (h : runTransaction store o cm ins upd del = .ok s2) :
    ∃ s1 s1', deletePhase store o (orderExists store o) del = .ok s1 ∧
      updatePhase o (orderExists store o) s1 upd = .ok s1' ∧
      (orderExists store o || !ins.isEmpty) = true ∧
      s2 = updateCommonDetails (insertPhase s1' o cm ins) o cm := by
  by_cases hex : (!(orderExists store o) && ins.isEmpty) = true
  · simp [runTransaction, hex] at h
  · have hcond : (orderExists store o || !ins.isEmpty) = true := by
      rcases Bool.eq_false_or_eq_true (orderExists store o) with hoe | hoe <;>
        simp_all
    cases hdel : deletePhase store o (orderExists store o) del with
    | error e => simp [runTransaction, hex, hdel] at h
    | ok s1 =>
        cases hupd : updatePhase o (orderExists store o) s1 upd with
        | error e => simp [runTransaction, hex, hdel, hupd] at h
        | ok s1' =>
            refine ⟨s1, s1', rfl, hupd, hcond, ?_⟩
            simp [runTransaction, hex, hdel, hupd, hcond] at h
            exact h.symm

/-- C1.  For every batch submitted to the order-reconciliation endpoint
(`PUT /orders-by-number/:order_no`), if any phase (delete, update,
insert, or header broadcast) raises an exception, the entire transaction
is rolled back and a failure response is returned: the stored rows are
exactly what they were before the request, with no partial application
visible. -/
theorem c1_rollback_on_exception (store : List Row) (o : String) (body : List Descr)
    (today : String) (e : String)
    (h : (putOrdersByNumber store o body today).1 = .serverError e) :
    (putOrdersByNumber store o body today).2 = store := by
  by_cases h0 : (jsTrim o == "") = true
  · simp [putOrdersByNumber, h0]
  · by_cases h1 : (sortById body).isEmpty = true
    · simp [putOrdersByNumber, h0, h1]
    · cases hrt : runTransaction store o (resolveCommon (sortById body) today)
          (itemsToInsertOf (sortById body)) (itemsToUpdateOf (sortById body))
          (itemsToDeleteOf (sortById body)) with
      | error e2 => simp [putOrdersByNumber, h0, h1, hrt]
      | ok s2 => simp [putOrdersByNumber, h0, h1, hrt] at h

/-- Witness for C1: a concrete failing request (update of a
non-existing order) leaves the store untouched. -/
theorem c1_rollback_on_exception_witness :
    (putOrdersByNumber [] "A" [⟨some 1, false, [("status", Value.vstr "x")]⟩] "d").1
      = HandlerResult.serverError "Order A does not exist and no new items provided" ∧
    (putOrdersByNumber [] "A" [⟨some 1, false, [("status", Value.vstr "x")]⟩] "d").2 = [] :=
  ⟨by decide, c1_rollback_on_exception [] "A"
    [⟨some 1, false, [("status", Value.vstr "x")]⟩] "d"
    "Order A does not exist and no new items provided" (by decide)⟩

/-- C4.  The differ's three sets are exactly shape-determined: toDelete
holds the descriptors with a persisted (truthy) id and the deletion
flag, toUpdate those with an id and no deletion flag, toInsert those
with no id and no deletion flag; no descriptor is in two sets. -/
theorem c4_differ_partition (l : List Descr) (d : Descr) :
    (d ∈ itemsToDeleteOf l ↔ d ∈ l ∧ truthyId d = true ∧ d.deleted = true) ∧
    (d ∈ itemsToUpdateOf l ↔ d ∈ l ∧ truthyId d = true ∧ d.deleted = false) ∧
    (d ∈ itemsToInsertOf l ↔ d ∈ l ∧ truthyId d = false ∧ d.deleted = false) ∧
    ¬(d ∈ itemsToDeleteOf l ∧ d ∈ itemsToUpdateOf l) ∧
    ¬(d ∈ itemsToDeleteOf l ∧ d ∈ itemsToInsertOf l) ∧
    ¬(d ∈ itemsToUpdateOf l ∧ d ∈ itemsToInsertOf l) := by
  refine ⟨?_, ?_, ?_, ?_, ?_, ?_⟩ <;>
    simp [itemsToDeleteOf, itemsToUpdateOf, itemsToInsertOf, List.mem_filter] <;>
    aesop

/-- Witness for C4 at a concrete batch: a `{id, _deleted}` descriptor
lands in the delete set. -/
theorem c4_differ_partition_witness :
    (⟨some 3, true, []⟩ : Descr) ∈ itemsToDeleteOf [⟨some 3, true, []⟩] :=
  (c4_differ_partition [⟨some 3, true, []⟩] ⟨some 3, true, []⟩).1.mpr
    ⟨by decide, by decide, by decide⟩

/-- C6.  Order-number generation: if the latest `SQ-` order's DD-MM-YY
date component equals today's, the next number increments the parsed
sequence re-padded to 4 digits; otherwise (different date or no prior
`SQ-` order) the sequence restarts at 0001 under today's date. -/
theorem c6_next_order_number (t : JsDate) (latest d m y s : String) (n : Nat)
    (hsplit : jsSplit latest '-' = ["SQ", d, m, y, s])
    (hseq : jsParseIntNat s = some n) :
    (d ++ "-" ++ m ++ "-" ++ y = currentDateStr t →
      nextOrderNumber (some latest) t
        = "SQ-" ++ currentDateStr t ++ "-" ++ jsPadStart (toString (n + 1)) 4 '0') ∧
    (d ++ "-" ++ m ++ "-" ++ y ≠ currentDateStr t →
      nextOrderNumber (some latest) t = "SQ-" ++ currentDateStr t ++ "-" ++ "0001") ∧
    nextOrderNumber none t = "SQ-" ++ currentDateStr t ++ "-" ++ "0001" := by
  refine ⟨fun hd => ?_, fun hd => ?_, rfl⟩
  · simp [nextOrderNumber, hsplit, List.getD, hseq, hd]
  · simp [nextOrderNumber, hsplit, List.getD, hd]

/-- Witness for C6: the spec's own examples, plus the no-prior-order
case. -/
theorem c6_next_order_number_witness :
    nextOrderNumber (some "SQ-05-06-24-0007") ⟨5, 6, 2024⟩ = "SQ-05-06-24-0008" ∧
    nextOrderNumber (some "SQ-05-06-24-0007") ⟨6, 6, 2024⟩ = "SQ-06-06-24-0001" ∧
    nextOrderNumber none ⟨6, 6, 2024⟩ = "SQ-06-06-24-0001" :=
  ⟨by
    have h := (c6_next_order_number ⟨5, 6, 2024⟩ "SQ-05-06-24-0007" "05" "06" "24" "0007" 7
      (by decide) (by decide)).1 (by decide)
    simpa using h,
   by
    have h := (c6_next_order_number ⟨6, 6, 2024⟩ "SQ-05-06-24-0007" "05" "06" "24" "0007" 7
      (by decide) (by decide)).2.1 (by decide)
    simpa using h,
   by
    have h := (c6_next_order_number ⟨6, 6, 2024⟩ "SQ-05-06-24-0007" "05" "06" "24" "0007" 7
      (by decide) (by decide)).2.2
    simpa using h⟩

/-- A broadcast row of the order carries exactly the resolved header
values. -/
theorem rowHeader_of_mem_updateCommonDetails {s : List Row} {o : String} {cm : Common}
    {r : Row} (hr : r ∈ updateCommonDetails s o cm) (ho : r.cols .order_no = .vstr o) :
    rowHeader r = commonHeader cm := by
  obtain ⟨r0, hr0, rfl⟩ := List.mem_map.mp hr
  by_cases hb : (r0.cols .order_no == Value.vstr o) = true
  · simp [broadcastRow, hb, rowHeader, applyCommon, headerVal, commonHeader]
  · rw [broadcastRow, if_neg hb] at ho ⊢
    exact absurd (by simp [ho]) hb

/-- C2.  After every successful reconciliation, any two rows of the
store sharing the requested order number carry identical values for all
fourteen header fields: the final header broadcast re-establishes the
invariant regardless of what the delete/update/insert phases wrote. -/
theorem c2_header_uniform_after_success (store : List Row) (o : String) (body : List Descr)
    (today : String) (h : (putOrdersByNumber store o body today).1.isOk = true) :
    ∀ r1 ∈ (putOrdersByNumber store o body today).2,
    ∀ r2 ∈ (putOrdersByNumber store o body today).2,
      r1.cols .order_no = .vstr o → r2.cols .order_no = .vstr o →
      rowHeader r1 = rowHeader r2 := by
  obtain ⟨hrt, -⟩ := putOrdersByNumber_ok h
  obtain ⟨s1, s1', -, -, -, hs2⟩ := runTransaction_ok hrt
  intro r1 h1 r2 h2 ho1 ho2
  rw [hs2] at h1 h2
  rw [rowHeader_of_mem_updateCommonDetails h1 ho1,
    rowHeader_of_mem_updateCommonDetails h2 ho2]

/-- Witness for C2: two surviving rows of a concrete successful
reconciliation have equal headers. -/
theorem c2_header_uniform_after_success_witness :
    rowHeader (sampleRowAOut 1 "P" "x") = rowHeader (sampleRowAOut 2 "Q" "x") :=
  c2_header_uniform_after_success [sampleRowA 1 "P", sampleRowA 2 "Q"] "A"
    [⟨some 1, false, [("status", Value.vstr "x")]⟩] "2024-06-01" (by decide)
    (sampleRowAOut 1 "P" "x") (by decide) (sampleRowAOut 2 "Q" "x") (by decide)
    (by decide) (by decide)

/-- A nonempty filtered list pins down `find?` on the base list. -/
theorem find?_of_filter_cons {l : List Descr} {p : Descr → Bool} {v : Descr}
    {rest : List Descr} (h : l.filter p = v :: rest) : l.find? p = some v := by
  induction l with
  | nil => simp at h
  | cons a t ih =>
      by_cases hp : p a = true
      · rw [List.filter_cons_of_pos hp] at h
        rw [List.find?_cons_of_pos _ hp]
        exact congrArg some (List.cons.injEq .. ▸ h |>.1)
      · rw [List.filter_cons_of_neg (by simpa using hp)] at h
        rw [List.find?_cons_of_neg _ (by simpa using hp)]
        exact ih h

/-- The handler's header resolution agrees with the claim's reference
definition (source-priority and defaulting) once the reference is read
over the same filtered list, with the source's default table. -/
theorem resolveCommonAux_eq_specFixed (l : List Descr) (today : String) :
    resolveCommonAux (l.filter (fun item => !item.deleted)) today
      = resolveCommonSpecFixed l today := by
  cases hf : l.filter (fun item => !item.deleted) with
  | nil =>
      have hall := List.filter_eq_nil_iff.mp hf
      have h1 : l.find? (fun d => !d.deleted) = none :=
        List.find?_eq_none.mpr fun x hx => by simpa using hall x hx
      have h2 : l.find? (fun d => !d.deleted && truthyId d) = none :=
        List.find?_eq_none.mpr fun x hx => by simp [by simpa using hall x hx]
      simp [resolveCommonAux, resolveCommonSpecFixed, specSource, h1, h2]
  | cons v rest =>
      have hv : l.find? (fun d => !d.deleted) = some v := find?_of_filter_cons hf
      have hfr : (v :: rest).find? (fun item => truthyId item)
          = l.find? (fun d => !d.deleted && truthyId d) := by
        rw [← hf, List.find?_filter]
        congr 1
        funext a
        simp
      cases hft : l.find? (fun d => !d.deleted && truthyId d) with
      | some d =>
          rw [hft] at hfr
          simp [resolveCommonAux, resolveCommonSpecFixed, specSource, hft, hfr]
      | none =>
          rw [hft] at hfr
          simp [resolveCommonAux, resolveCommonSpecFixed, specSource, hft, hfr, hv]

/-- C5 (amended).  The header set the handler resolves equals the
reference definition (first non-deleted descriptor with a persisted id,
else first non-deleted; absent fields defaulted) applied to the batch
sorted ascending by id, with voucher_type defaulting to "Sales Order"
rather than the empty string. -/
theorem c5_header_resolution_of_sorted (body : List Descr) (today : String) :
    resolveCommon (sortById body) today = resolveCommonSpecFixed (sortById body) today :=
  resolveCommonAux_eq_specFixed (sortById body) today

/-- Counterexample for C5 as stated: with two id-bearing descriptors in
descending id order, the endpoint resolves headers from the smallest id
(the batch is sorted first), not from the first descriptor of the batch,
and voucher_type falls back to "Sales Order", not to the empty
string. -/
theorem c5_counterexample :
    (resolveCommonSpec c5Batch "2024-06-01").customer_name = Value.vstr "B" ∧
    (resolveCommonSpec c5Batch "2024-06-01").voucher_type = Value.vstr "" ∧
    resolveCommon (sortById c5Batch) "2024-06-01" ≠ resolveCommonSpec c5Batch "2024-06-01" ∧
    (putOrdersByNumber c5Store "A" c5Batch "2024-06-01").1.isOk = true ∧
    (putOrdersByNumber c5Store "A" c5Batch "2024-06-01").2.all
      (fun r => r.cols .customer_name == Value.vstr "A"
        && r.cols .voucher_type == Value.vstr "Sales Order") = true := by
  refine ⟨by decide, by decide, by decide, by decide, by decide⟩

/-- A member contributing errors makes the whole validation pass
fail, whatever the starting index. -/
theorem p0ValidationErrorsFrom_ne_nil {l : List Descr} {u : Descr} (hu : u ∈ l)
    (hne : ∀ i, p0ValidateItem i u ≠ []) : ∀ i, p0ValidationErrorsFrom i l ≠ [] := by
  induction l with
  | nil => cases hu
  | cons a t ih =>
      intro i hcontra
      rw [p0ValidationErrorsFrom] at hcontra
      rcases List.append_eq_nil.mp hcontra with ⟨ha, ht⟩
      rcases List.mem_cons.mp hu with rfl | hut
      · exact hne i ha
      · exact ih hut (i + 1) ht

/-- An update item with a NaN value in a numeric field contributes a
validation error. -/
theorem p0ValidateItem_ne_of_nan {u : Descr} {f : String} {v : Value} (i : Nat)
    (hdel : u.deleted = false) (hf : f ∈ p0NumericFields)
    (hlook : u.fields.lookup f = some v) (hnan : jsIsNaN v = true) :
    p0ValidateItem i u ≠ [] := by
  intro hcontra
  rw [p0ValidateItem, if_neg (by simp [hdel])] at hcontra
  rcases List.append_eq_nil.mp hcontra with ⟨h1, -⟩
  rcases List.append_eq_nil.mp h1 with ⟨-, h2⟩
  have : ("Update " ++ toString i ++ ": " ++ f ++ " must be a number")
      ∈ p0NumericFields.filterMap (fun f =>
        match u.fields.lookup f with
        | some v =>
            if jsIsNaN v then
              some ("Update " ++ toString i ++ ": " ++ f ++ " must be a number")
            else none
        | none => none) :=
    List.mem_filterMap.mpr ⟨f, hf, by rw [hlook]; simp [hnan]⟩
  rw [h2] at this
  cases this

/-- An update item with an out-of-range gst contributes a validation
error. -/
theorem p0ValidateItem_ne_of_gst {u : Descr} {v : Value} (i : Nat)
    (hdel : u.deleted = false) (hlook : u.fields.lookup "gst" = some v)
    (hrange : (jsLt v 0 || jsGt v 100) = true) :
    p0ValidateItem i u ≠ [] := by
  intro hcontra
  rw [p0ValidateItem, if_neg (by simp [hdel])] at hcontra
  rcases List.append_eq_nil.mp hcontra with ⟨-, h2⟩
  rw [hlook] at h2
  simp [hrange] at h2

/-- C7.  A malformed batch (missing order number, empty body, a NaN
value in a numeric field of an update item, or a gst outside 0..100) is
rejected by the part_000 endpoint with a 400 validation response before
any store access: the store is untouched and no transaction is
opened. -/
theorem c7_validation_rejects_malformed (store : List Row) (o : String) (body : List Descr)
    (h : jsTrim o = "" ∨ body = [] ∨
      (∃ u ∈ body, u.deleted = false ∧ ∃ f v, f ∈ p0NumericFields ∧
        u.fields.lookup f = some v ∧ jsIsNaN v = true) ∨
      (∃ u ∈ body, u.deleted = false ∧ ∃ v, u.fields.lookup "gst" = some v ∧
        (jsLt v 0 || jsGt v 100) = true)) :
    (p0PutOrdersByNumber store o body).1.isBadRequest = true ∧
    (p0PutOrdersByNumber store o body).2.1 = store ∧
    (p0PutOrdersByNumber store o body).2.2 = false := by
  by_cases h0 : (jsTrim o == "") = true
  · simp [p0PutOrdersByNumber, h0, P0Result.isBadRequest]
  · by_cases h1 : (sortById body).isEmpty = true
    · simp [p0PutOrdersByNumber, h0, h1, P0Result.isBadRequest]
    · have hval : p0ValidationErrors (sortById body) ≠ [] := by
        rcases h with h | h | h | h
        · exact absurd (by simp [h]) h0
        · exact absurd (sortById_isEmpty_iff.mpr h) (by simp [h1])
        · obtain ⟨u, hu, hdel, f, v, hf, hlook, hnan⟩ := h
          exact p0ValidationErrorsFrom_ne_nil (mem_sortById.mpr hu)
            (fun i => p0ValidateItem_ne_of_nan i hdel hf hlook hnan) 0
        · obtain ⟨u, hu, hdel, v, hlook, hrange⟩ := h
          exact p0ValidationErrorsFrom_ne_nil (mem_sortById.mpr hu)
            (fun i => p0ValidateItem_ne_of_gst i hdel hlook hrange) 0
      have hval2 : (p0ValidationErrors (sortById body)).isEmpty = false := by
        simpa [List.isEmpty_iff] using hval
      simp [p0PutOrdersByNumber, h0, h1, hval2, P0Result.isBadRequest]

/-- Witness for C7: a batch with a non-numeric gst is rejected with the
store untouched and no transaction opened. -/
theorem c7_validation_rejects_malformed_witness :
    (p0PutOrdersByNumber [] "X" [⟨some 1, false, [("gst", Value.vstr "abc")]⟩]).1.isBadRequest
        = true ∧
    (p0PutOrdersByNumber [] "X" [⟨some 1, false, [("gst", Value.vstr "abc")]⟩]).2.1 = [] ∧
    (p0PutOrdersByNumber [] "X" [⟨some 1, false, [("gst", Value.vstr "abc")]⟩]).2.2 = false :=
  c7_validation_rejects_malformed [] "X" [⟨some 1, false, [("gst", Value.vstr "abc")]⟩]
    (Or.inr (Or.inr (Or.inl ⟨⟨some 1, false, [("gst", Value.vstr "abc")]⟩, by decide,
      rfl, "gst", Value.vstr "abc", by decide, by decide, by decide⟩)))

/-! Lemmas about dynamic SET clauses and the parts of a row the phase
predicates read. -/

theorem cols_setCol (r : Row) (k : String) (v : Value) (c : Column) :
    (setCol r k v).cols c = if colOfString k = some c then v else r.cols c := by
  cases hk : colOfString k with
  | none => simp [setCol, hk]
  | some c2 =>
      by_cases hcc : c = c2
      · subst hcc; simp [setCol, hk, Function.update_apply]
      · simp [setCol, hk, Function.update_apply, hcc, Ne.symm hcc]

theorem id_setCol (r : Row) (k : String) (v : Value) : (setCol r k v).id = r.id := by
  cases hk : colOfString k <;> simp [setCol, hk]

theorem cols_setCols (fs : List (String × Value)) (r : Row) (c : Column) :
    (setCols r fs).cols c = (lastAssign fs c).getD (r.cols c) := by
  induction fs generalizing r with
  | nil => rfl
  | cons kv fs ih =>
      rw [setCols, List.foldl_cons]
      rw [show List.foldl (fun r kv => setCol r kv.1 kv.2) (setCol r kv.1 kv.2) fs
        = setCols (setCol r kv.1 kv.2) fs from rfl, ih]
      cases hla : lastAssign fs c with
      | some w => simp [lastAssign, hla]
      | none =>
          rw [cols_setCol]
          by_cases hc : colOfString kv.1 = some c <;> simp [lastAssign, hla, hc]

theorem id_setCols (fs : List (String × Value)) (r : Row) : (setCols r fs).id = r.id := by
  induction fs generalizing r with
  | nil => rfl
  | cons kv fs ih =>
      rw [setCols, List.foldl_cons]
      rw [show List.foldl (fun r kv => setCol r kv.1 kv.2) (setCol r kv.1 kv.2) fs
        = setCols (setCol r kv.1 kv.2) fs from rfl, ih, id_setCol]

theorem lastAssign_eq_none {fs : List (String × Value)} {c : Column}
    (h : ∀ kv ∈ fs, colOfString kv.1 ≠ some c) : lastAssign fs c = none := by
  induction fs with
  | nil => rfl
  | cons kv fs ih =>
      rw [lastAssign, ih (fun x hx => h x (List.mem_cons_of_mem kv hx))]
      simp [h kv (List.mem_cons_self kv fs)]

/-- A name that maps to the `order_no` column is the string
"order_no". -/
theorem colOfString_order_no {k : String} (h : colOfString k = some Column.order_no) :
    k = "order_no" := by
  unfold colOfString at h
  split at h <;> simp_all

/-- Allowlisted fields never target the `order_no` column. -/
theorem filterAllowed_no_order_no {fs : List (String × Value)} :
    ∀ kv ∈ filterAllowed fs, colOfString kv.1 ≠ some Column.order_no := by
  intro kv hkv hcol
  have hmem : kv.1 ∈ allowedFields := by
    have := (List.mem_filter.mp hkv).2
    simpa [List.elem_iff] using this
  rw [colOfString_order_no hcol] at hmem
  exact absurd hmem (by decide)

theorem skel_setCols_filterAllowed (fs : List (String × Value)) (r : Row) :
    skel (setCols r (filterAllowed fs)) = skel r := by
  rw [skel, skel, id_setCols, cols_setCols,
    lastAssign_eq_none (@filterAllowed_no_order_no fs)]
  rfl

theorem skel_rowStep (o : String) (item : Descr) (r : Row) :
    skel (rowStep o item r) = skel r := by
  rw [rowStep]
  split
  · rfl
  · split
    · exact skel_setCols_filterAllowed item.fields r
    · rfl

theorem skel_applyCommon (cm : Common) (r : Row) :
    skel (applyCommon r cm) = skel r := rfl

theorem skel_broadcastRow (o : String) (cm : Common) (r : Row) :
    skel (broadcastRow o cm r) = skel r := by
  rw [broadcastRow]
  split
  · exact skel_applyCommon cm r
  · rfl

/-- A transported ownership obstruction: any store with the same ids
and order numbers keeps it. -/
theorem bad_of_skel_map {s t : List Row} {k : Int} {o : String}
    (hmap : t.map skel = s.map skel)
    (hbad : ∀ r ∈ s, r.id = k → r.cols .order_no ≠ .vstr o) :
    ∀ r ∈ t, r.id = k → r.cols .order_no ≠ .vstr o := by
  intro r hr hid
  have : skel r ∈ s.map skel := hmap ▸ List.mem_map_of_mem skel hr
  obtain ⟨r0, hr0, hsk⟩ := List.mem_map.mp this
  have hido : r0.id = r.id ∧ r0.cols .order_no = r.cols .order_no := by
    have h1 := congrArg Prod.fst hsk
    have h2 := congrArg Prod.snd hsk
    exact ⟨h1, h2⟩
  rw [← hido.2]
  exact hbad r0 hr0 (hido.1.trans hid)

/-- A successful targeted update leaves every id and order number in
place. -/
theorem updateOne_ok_skel {s s1 : List Row} {o : String} {item : Descr}
    (h : updateOne s o item = .ok s1) : s1.map skel = s.map skel := by
  simp only [updateOne] at h
  split at h
  · cases h; rfl
  · split at h
    · cases h
    · cases h
      rw [List.map_map]
      refine List.map_congr_left fun r hr => ?_
      by_cases hc : (r.id == idKey item && r.cols .order_no == Value.vstr o) = true
      · simp only [Function.comp_apply, hc, if_pos]
        exact skel_setCols_filterAllowed item.fields r
      · simp only [Function.comp_apply]
        rw [if_neg hc]

/-- If some update item's id matches no row of the requested order (and
cannot come to match one, since ids and order numbers never change
during the phase), the update phase fails. -/
theorem updatePhase_error_of_bad {s : List Row} {o : String} {items : List Descr} {d : Descr}
    (hd : d ∈ items)
    (hbad : ∀ r ∈ s, r.id = idKey d → r.cols .order_no ≠ .vstr o) :
    ∃ e, updatePhase o true s items = .error e := by
  induction items generalizing s with
  | nil => cases hd
  | cons a t ih =>
      cases hchk : updateItemCheck s o true a with
      | some e => exact ⟨e, by simp [updatePhase, hchk]⟩
      | none =>
          have hne : idKey a ≠ idKey d := by
            intro he
            cases hf : s.find? (fun r => r.id == idKey a) with
            | none => rw [updateItemCheck, if_pos rfl, hf] at hchk; cases hchk
            | some r =>
                have hrmem := List.mem_of_find?_eq_some hf
                have hrid : r.id = idKey a := by simpa using List.find?_some hf
                have hbadr := hbad r hrmem (by rw [hrid, he])
                rw [updateItemCheck, if_pos rfl, hf] at hchk
                split at hchk
                · cases hchk
                · simp_all
          have hdt : d ∈ t := by
            rcases List.mem_cons.mp hd with rfl | h
            · exact absurd rfl hne
            · exact h
          cases hupd : updateOne s o a with
          | error e => exact ⟨e, by simp [updatePhase, hchk, hupd]⟩
          | ok s1 =>
              have hbad1 := bad_of_skel_map (updateOne_ok_skel hupd) hbad
              obtain ⟨e, he⟩ := ih hdt hbad1
              exact ⟨e, by simp [updatePhase, hchk, hupd, he]⟩

/-- If some delete item's id matches no row of the requested order and
the order exists, the delete-phase verification fails (counting
argument over distinct row ids). -/
theorem deletePhase_error_of_bad {store : List Row} {o : String} {del : List Descr} {d : Descr}
    (hnodup : (store.map (fun r => r.id)).Nodup)
    (hd : d ∈ del)
    (hbad : ∀ r ∈ store, r.id = idKey d → r.cols .order_no ≠ .vstr o) :
    ∃ e, deletePhase store o true del = .error e := by
  have hkmem : idKey d ∈ del.map idKey := List.mem_map_of_mem idKey hd
  have hmlen : (store.filter (fun r =>
      (del.map idKey).contains r.id && r.cols .order_no == Value.vstr o)).length
      < (del.map idKey).length := by
    set ids := del.map idKey with hids
    set matched := store.filter
      (fun r => ids.contains r.id && r.cols .order_no == Value.vstr o) with hmatched
    have hsub : List.Sublist (matched.map (fun r => r.id)) (store.map (fun r => r.id)) :=
      (List.filter_sublist store).map _
    have hmnodup : (matched.map (fun r => r.id)).Nodup := hsub.nodup hnodup
    have hsubset : (matched.map (fun r => r.id)).toFinset ⊆ ids.toFinset.erase (idKey d) := by
      intro x hx
      obtain ⟨r, hr, rfl⟩ := List.mem_map.mp (List.mem_toFinset.mp hx)
      obtain ⟨hrs, hpred⟩ := List.mem_filter.mp hr
      rw [Bool.and_eq_true] at hpred
      have hxid : r.id ∈ ids := by
        simpa [List.elem_iff] using hpred.1
      have hxo : r.cols .order_no = .vstr o := by
        simpa using hpred.2
      refine Finset.mem_erase.mpr ⟨fun hcontra => ?_, List.mem_toFinset.mpr hxid⟩
      exact hbad r hrs hcontra hxo
    have hc1 : matched.length = (matched.map (fun r => r.id)).length :=
      (List.length_map matched _).symm
    have hc2 : (matched.map (fun r => r.id)).length = (matched.map (fun r => r.id)).toFinset.card :=
      (List.toFinset_card_of_nodup hmnodup).symm
    have hc3 : (matched.map (fun r => r.id)).toFinset.card ≤ (ids.toFinset.erase (idKey d)).card :=
      Finset.card_le_card hsubset
    have hc4 : (ids.toFinset.erase (idKey d)).card = ids.toFinset.card - 1 :=
      Finset.card_erase_of_mem (List.mem_toFinset.mpr hkmem)
    have hc5 : ids.toFinset.card ≤ ids.length := List.toFinset_card_le ids
    have hc6 : 0 < ids.toFinset.card :=
      Finset.card_pos.mpr ⟨idKey d, List.mem_toFinset.mpr hkmem⟩
    omega
  have hdelne : ¬del.isEmpty = true := by
    cases del
    · cases hd
    · simp
  refine ⟨"Cannot delete items: they do not belong to order " ++ o, ?_⟩
  simp only [deletePhase]
  rw [if_neg hdelne, if_pos]
  simp only [Bool.true_and]
  exact bne_iff_ne.mpr (Nat.ne_of_lt hmlen)

/-- A successful delete phase only removes rows. -/
theorem deletePhase_ok_subset {s s1 : List Row} {o : String} {oe : Bool}
    {del : List Descr} (h : deletePhase s o oe del = .ok s1) : ∀ r ∈ s1, r ∈ s := by
  simp only [deletePhase] at h
  split at h
  · cases h; exact fun r hr => hr
  · split at h
    · cases h
    · cases h; exact fun r hr => (List.mem_filter.mp hr).1

/-- C3 (amended).  When the requested order already has rows, a
referenced id (update or delete) that matches no row of that order makes
the whole batch fail with the store unchanged — the delete ids are
verified against the order up front, and the update ids per item during
the update phase; when the order has no rows the code skips these
ownership checks (see the counterexample). -/
theorem c3_ownership_checked_when_order_exists (store : List Row) (o : String)
    (body : List Descr) (today : String) (d : Descr)
    (hnodup : (store.map (fun r => r.id)).Nodup)
    (hd : d ∈ body) (htru : truthyId d = true)
    (hex : orderExists store o = true)
    (hbad : ∀ r ∈ store, r.id = idKey d → r.cols .order_no ≠ .vstr o) :
    (putOrdersByNumber store o body today).1.isOk = false ∧
    (putOrdersByNumber store o body today).2 = store := by
  by_cases h0 : (jsTrim o == "") = true
  · simp [putOrdersByNumber, h0, HandlerResult.isOk]
  · by_cases h1 : (sortById body).isEmpty = true
    · simp [putOrdersByNumber, h0, h1, HandlerResult.isOk]
    · have hds : d ∈ sortById body := mem_sortById.mpr hd
      have herr : ∃ e, runTransaction store o (resolveCommon (sortById body) today)
          (itemsToInsertOf (sortById body)) (itemsToUpdateOf (sortById body))
          (itemsToDeleteOf (sortById body)) = .error e := by
        cases hdel : d.deleted with
        | true =>
            have hmem : d ∈ itemsToDeleteOf (sortById body) :=
              List.mem_filter.mpr ⟨hds, by rw [hdel, htru]; rfl⟩
            obtain ⟨e, he⟩ := deletePhase_error_of_bad hnodup hmem hbad
            exact ⟨e, by simp [runTransaction, hex, he]⟩
        | false =>
            have hmem : d ∈ itemsToUpdateOf (sortById body) :=
              List.mem_filter.mpr ⟨hds, by rw [hdel, htru]; rfl⟩
            cases hdp : deletePhase store o (orderExists store o)
                (itemsToDeleteOf (sortById body)) with
            | error e =>
                rw [hex] at hdp
                exact ⟨e, by simp [runTransaction, hex, hdp]⟩
            | ok s1 =>
                have hbad1 : ∀ r ∈ s1, r.id = idKey d → r.cols .order_no ≠ .vstr o :=
                  fun r hr => hbad r (deletePhase_ok_subset hdp r hr)
                obtain ⟨e, he⟩ := updatePhase_error_of_bad hmem hbad1
                rw [hex] at hdp
                exact ⟨e, by simp [runTransaction, hex, hdp, he]⟩
      obtain ⟨e, he⟩ := herr
      simp [putOrdersByNumber, h0, h1, he, HandlerResult.isOk]

/-- Witness for the amended C3: an update referencing a row of a
different order fails the whole batch, store unchanged. -/
theorem c3_ownership_checked_when_order_exists_witness :
    (putOrdersByNumber [sampleRowA 1 "P", sampleRowOther] "A"
        [⟨some 5, false, [("status", Value.vstr "x")]⟩] "2024-06-01").1.isOk = false ∧
    (putOrdersByNumber [sampleRowA 1 "P", sampleRowOther] "A"
        [⟨some 5, false, [("status", Value.vstr "x")]⟩] "2024-06-01").2
      = [sampleRowA 1 "P", sampleRowOther] :=
  c3_ownership_checked_when_order_exists [sampleRowA 1 "P", sampleRowOther] "A"
    [⟨some 5, false, [("status", Value.vstr "x")]⟩] "2024-06-01"
    ⟨some 5, false, [("status", Value.vstr "x")]⟩
    (by decide) (by decide) (by decide) (by decide) (by decide)

/-- Counterexample for C3 as stated: when the requested order has no
rows yet (creation via inserts), a delete descriptor whose id belongs to
a different order is silently ignored instead of failing the batch — the
request succeeds and the foreign row survives. -/
theorem c3_counterexample :
    (putOrdersByNumber [sampleRowOther] "A"
        [⟨none, false, [("item_code", Value.vstr "N")]⟩, ⟨some 5, true, []⟩]
        "2024-06-01").1.isOk = true ∧
    sampleRowOther ∈ (putOrdersByNumber [sampleRowOther] "A"
        [⟨none, false, [("item_code", Value.vstr "N")]⟩, ⟨some 5, true, []⟩]
        "2024-06-01").2 ∧
    truthyId ⟨some 5, true, []⟩ = true ∧
    (⟨some 5, true, []⟩ : Descr).deleted = true ∧
    sampleRowOther.id = idKey ⟨some 5, true, []⟩ ∧
    sampleRowOther.cols .order_no = Value.vstr "B" := by
  refine ⟨by decide, by decide, by decide, by decide, by decide, by decide⟩

/-- A successful update phase preserves every id and order number
positionwise. -/
theorem updatePhase_ok_skel {o : String} {oe : Bool} {items : List Descr}
    {s s2 : List Row} (h : updatePhase o oe s items = .ok s2) :
    s2.map skel = s.map skel := by
  induction items generalizing s with
  | nil => rw [updatePhase] at h; cases h; rfl
  | cons a t ih =>
      rw [updatePhase] at h
      split at h
      · cases h
      · split at h
        · cases h
        · exact (ih h).trans (updateOne_ok_skel (by assumption))

/-- The header broadcast preserves every id and order number
positionwise. -/
theorem updateCommonDetails_skel (s : List Row) (o : String) (cm : Common) :
    (updateCommonDetails s o cm).map skel = s.map skel := by
  rw [updateCommonDetails, List.map_map]
  exact List.map_congr_left fun r _ => skel_broadcastRow o cm r

/-- Inserted rows carry ids at least the starting fresh id and the
requested order number. -/
theorem insertRows_mem {o : String} {cm : Common} {n : Int} {items : List Descr}
    {nr : Row} (h : nr ∈ insertRows o cm n items) :
    n ≤ nr.id ∧ nr.cols .order_no = .vstr o := by
  induction items generalizing n with
  | nil => cases h
  | cons a t ih =>
      rcases List.mem_cons.mp h with rfl | h2
      · exact ⟨le_refl _, rfl⟩
      · obtain ⟨h1, h2⟩ := ih h2
        exact ⟨le_trans (by omega) h1, h2⟩

theorem le_foldl_max (l : List Int) (a x : Int) (h : x ∈ l ∨ x ≤ a) :
    x ≤ l.foldl max a := by
  induction l generalizing a with
  | nil =>
      rcases h with h | h
      · cases h
      · simpa using h
  | cons b t ih =>
      rw [List.foldl_cons]
      rcases h with h | h
      · rcases List.mem_cons.mp h with rfl | h2
        · exact ih _ (Or.inr (le_max_right a x))
        · exact ih _ (Or.inl h2)
      · exact ih _ (Or.inr (le_trans h (le_max_left a b)))

/-- The success or failure shape of the endpoint's resulting store. -/
theorem putOrdersByNumber_snd_cases (store : List Row) (o : String) (body : List Descr)
    (today : String) :
    (putOrdersByNumber store o body today).2 = store ∨
    runTransaction store o (resolveCommon (sortById body) today)
        (itemsToInsertOf (sortById body)) (itemsToUpdateOf (sortById body))
        (itemsToDeleteOf (sortById body))
      = .ok ((putOrdersByNumber store o body today).2) := by
  by_cases h0 : (jsTrim o == "") = true
  · exact Or.inl (by simp [putOrdersByNumber, h0])
  · by_cases h1 : (sortById body).isEmpty = true
    · exact Or.inl (by simp [putOrdersByNumber, h0, h1])
    · cases hrt : runTransaction store o (resolveCommon (sortById body) today)
          (itemsToInsertOf (sortById body)) (itemsToUpdateOf (sortById body))
          (itemsToDeleteOf (sortById body)) with
      | error e => exact Or.inl (by simp [putOrdersByNumber, h0, h1, hrt])
      | ok s2 => exact Or.inr (by simp [putOrdersByNumber, h0, h1, hrt])

/-- The two shapes a successful delete phase can take. -/
theorem deletePhase_ok_cases {s s1 : List Row} {o : String} {oe : Bool}
    {del : List Descr} (h : deletePhase s o oe del = .ok s1) :
    s1 = s ∨ s1 = s.filter (fun r =>
      !((del.map idKey).contains r.id && r.cols .order_no == Value.vstr o)) := by
  simp only [deletePhase] at h
  split at h
  · cases h; exact Or.inl rfl
  · split at h
    · cases h
    · cases h; exact Or.inr rfl

/-- Ids as a projection of the skeleton. -/
theorem map_id_eq_of_skel {s t : List Row} (h : s.map skel = t.map skel) :
    s.map (fun r => r.id) = t.map (fun r => r.id) := by
  have := congrArg (List.map Prod.fst) h
  simpa [List.map_map, Function.comp_def, skel] using this

/-- C9.  No operation of the reconciliation endpoint changes the
`order_no` of an existing row: the update allowlist excludes `order_no`
and `id`, and the broadcast sets only the fourteen header fields, so a
surviving row (identified by its id, unique in the store) keeps its
order number. -/
theorem c9_order_no_immutable (store : List Row) (o : String) (body : List Descr)
    (today : String) (hnodup : (store.map (fun r => r.id)).Nodup) :
    (∀ r ∈ store, ∀ r2 ∈ (putOrdersByNumber store o body today).2,
      r2.id = r.id → r2.cols .order_no = r.cols .order_no) ∧
    allowedFields.contains "order_no" = false ∧
    allowedFields.contains "id" = false := by
  refine ⟨?_, by decide, by decide⟩
  intro r hr r2 hr2 hid
  have hinj := List.inj_on_of_nodup_map hnodup
  rcases putOrdersByNumber_snd_cases store o body today with hsnd | hrt
  · rw [hsnd] at hr2
    rw [hinj hr2 hr hid]
  · obtain ⟨s1, s1', hdp, hup, -, hs2⟩ := runTransaction_ok hrt
    rw [hs2] at hr2
    rw [updateCommonDetails, insertPhase, List.map_append] at hr2
    have hskel : s1'.map skel = s1.map skel := updatePhase_ok_skel hup
    have hsub := deletePhase_ok_subset hdp
    rcases List.mem_append.mp hr2 with hold | hnew
    · obtain ⟨r3, hr3, rfl⟩ := List.mem_map.mp hold
      have hsk3 : skel r3 ∈ s1.map skel := hskel ▸ List.mem_map_of_mem skel hr3
      obtain ⟨r4, hr4, hsk4⟩ := List.mem_map.mp hsk3
      have h4id : r4.id = r3.id := congrArg Prod.fst hsk4
      have h4o : r4.cols .order_no = r3.cols .order_no := congrArg Prod.snd hsk4
      have hbid : (broadcastRow o (resolveCommon (sortById body) today) r3).id = r3.id :=
        congrArg Prod.fst (skel_broadcastRow o _ r3)
      have hbo : (broadcastRow o (resolveCommon (sortById body) today) r3).cols .order_no
          = r3.cols .order_no :=
        congrArg Prod.snd (skel_broadcastRow o _ r3)
      have h4r : r4 = r := hinj (hsub r4 hr4) hr (by rw [h4id, ← hbid, hid])
      rw [hbo, ← h4o, h4r]
    · obtain ⟨nr, hnr, rfl⟩ := List.mem_map.mp hnew
      obtain ⟨hge, hno⟩ := insertRows_mem hnr
      have hbid : (broadcastRow o (resolveCommon (sortById body) today) nr).id = nr.id :=
        congrArg Prod.fst (skel_broadcastRow o _ nr)
      have hbo : (broadcastRow o (resolveCommon (sortById body) today) nr).cols .order_no
          = nr.cols .order_no :=
        congrArg Prod.snd (skel_broadcastRow o _ nr)
      by_cases hrs1 : r ∈ s1
      · exfalso
        have hrid : r.id ∈ s1'.map (fun r => r.id) := by
          rw [map_id_eq_of_skel hskel]
          exact List.mem_map_of_mem _ hrs1
        have hle : r.id ≤ (s1'.map (fun r => r.id)).foldl max 0 :=
          le_foldl_max _ 0 r.id (Or.inl hrid)
        have : nextFreeId s1' ≤ nr.id := hge
        rw [nextFreeId] at this
        have : r.id < nr.id := by omega
        rw [← hid, hbid] at this
        omega
      · rcases deletePhase_ok_cases hdp with rfl | hflt
        · exact absurd hr hrs1
        · have hpred : ¬(!((itemsToDeleteOf (sortById body) |>.map idKey).contains r.id
              && r.cols .order_no == Value.vstr o)) = true := by
            intro hcontra
            exact hrs1 (hflt ▸ List.mem_filter.mpr ⟨hr, hcontra⟩)
          have hb : ((itemsToDeleteOf (sortById body) |>.map idKey).contains r.id
              && r.cols .order_no == Value.vstr o) = true := by
            rcases Bool.eq_false_or_eq_true
                ((itemsToDeleteOf (sortById body) |>.map idKey).contains r.id
                  && r.cols .order_no == Value.vstr o) with hb | hb
            · exact hb
            · exact absurd (by rw [hb]; rfl) hpred
          rw [Bool.and_eq_true] at hb
          have hro : r.cols .order_no = .vstr o := by simpa using hb.2
          rw [hbo, hno, hro]

/-- Witness for C9: a surviving row of a concrete reconciliation keeps
its order number. -/
theorem c9_order_no_immutable_witness :
    (sampleRowAOut 1 "P" "x").cols .order_no = (sampleRowA 1 "P").cols .order_no :=
  (c9_order_no_immutable [sampleRowA 1 "P"] "A"
    [⟨some 1, false, [("status", Value.vstr "x")]⟩] "2024-06-01" (by decide)).1
    (sampleRowA 1 "P") (by decide) (sampleRowAOut 1 "P" "x") (by decide) (by decide)

/-! The stable sort commutes with filtering: the basis for reasoning
about a descriptor that belongs to none of the differ sets. -/

theorem orderedInsert_key_cons_of_le {a b : Descr} (l : List Descr)
    (h : idKey a ≤ idKey b) :
    (b :: l).orderedInsert (fun x y => idKey x ≤ idKey y) a = a :: b :: l := by
  show (if idKey a ≤ idKey b then a :: b :: l
    else b :: l.orderedInsert (fun x y => idKey x ≤ idKey y) a) = a :: b :: l
  rw [if_pos h]

theorem orderedInsert_key_cons_of_not_le {a b : Descr} (l : List Descr)
    (h : ¬idKey a ≤ idKey b) :
    (b :: l).orderedInsert (fun x y => idKey x ≤ idKey y) a
      = b :: l.orderedInsert (fun x y => idKey x ≤ idKey y) a := by
  show (if idKey a ≤ idKey b then a :: b :: l
    else b :: l.orderedInsert (fun x y => idKey x ≤ idKey y) a) = _
  rw [if_neg h]

theorem filter_orderedInsert_key (p : Descr → Bool) (a : Descr) (l : List Descr)
    (hs : l.Sorted (fun x y => idKey x ≤ idKey y)) :
    (l.orderedInsert (fun x y => idKey x ≤ idKey y) a).filter p
      = if p a then (l.filter p).orderedInsert (fun x y => idKey x ≤ idKey y) a
        else l.filter p := by
  induction l with
  | nil =>
      by_cases hp : p a = true <;>
        simp [List.orderedInsert, hp]
  | cons b t ih =>
      by_cases hab : idKey a ≤ idKey b
      · rw [orderedInsert_key_cons_of_le t hab]
        by_cases hp : p a = true
        · rw [if_pos hp, List.filter_cons_of_pos hp]
          cases hf : (b :: t).filter p with
          | nil => rfl
          | cons c cs =>
              have hc : c ∈ b :: t := (List.mem_filter.mp (hf ▸ List.mem_cons_self c cs)).1
              have hbc : idKey b ≤ idKey c := by
                rcases List.mem_cons.mp hc with rfl | hct
                · exact le_refl _
                · exact List.rel_of_sorted_cons hs c hct
              exact (orderedInsert_key_cons_of_le cs (le_trans hab hbc)).symm
        · rw [if_neg hp, List.filter_cons_of_neg (by simpa using hp)]
      · rw [orderedInsert_key_cons_of_not_le t hab]
        have ih2 := ih hs.of_cons
        by_cases hpb : p b = true
        · rw [List.filter_cons_of_pos hpb, ih2, List.filter_cons_of_pos hpb]
          by_cases hp : p a = true
          · rw [if_pos hp, if_pos hp, orderedInsert_key_cons_of_not_le (t.filter p) hab]
          · rw [if_neg hp, if_neg hp]
        · rw [List.filter_cons_of_neg (by simpa using hpb), ih2,
            List.filter_cons_of_neg (by simpa using hpb)]

theorem sortById_cons (a : Descr) (t : List Descr) :
    sortById (a :: t) = (sortById t).orderedInsert (fun x y => idKey x ≤ idKey y) a := rfl

theorem filter_sortById (p : Descr → Bool) (l : List Descr) :
    (sortById l).filter p = sortById (l.filter p) := by
  induction l with
  | nil => rfl
  | cons a t ih =>
      rw [sortById_cons,
        filter_orderedInsert_key p a (sortById t) (List.sorted_insertionSort _ t)]
      by_cases hp : p a = true
      · rw [if_pos hp, ih, List.filter_cons_of_pos hp, sortById_cons]
      · rw [if_neg hp, ih, List.filter_cons_of_neg (by simpa using hp)]

/-- Removing a descriptor the filter rejects does not change the
filtered, sorted batch. -/
theorem filter_sortById_erase_middle (p : Descr → Bool) (xs ys : List Descr) (d : Descr)
    (hd : p d = false) :
    (sortById (xs ++ d :: ys)).filter p = (sortById (xs ++ ys)).filter p := by
  rw [filter_sortById, filter_sortById, List.filter_append, List.filter_append,
    List.filter_cons_of_neg (by simp [hd])]

/-- C10 (amended).  A descriptor with the deletion flag but no
persisted id falls in none of the three differ sets and, provided at
least one other descriptor remains in the batch, the whole
reconciliation (response and resulting store) behaves exactly as if it
were absent; a batch containing only such descriptors, however, passes
the nonempty check and still triggers the header broadcast (see the
counterexample). -/
theorem c10_ghost_descriptor_ignored (store : List Row) (o today : String)
    (xs ys : List Descr) (d : Descr)
    (h1 : truthyId d = false) (h2 : d.deleted = true) (hne : xs ++ ys ≠ []) :
    putOrdersByNumber store o (xs ++ d :: ys) today
      = putOrdersByNumber store o (xs ++ ys) today ∧
    d ∉ itemsToInsertOf (sortById (xs ++ d :: ys)) ∧
    d ∉ itemsToUpdateOf (sortById (xs ++ d :: ys)) ∧
    d ∉ itemsToDeleteOf (sortById (xs ++ d :: ys)) := by
  refine ⟨?_, ?_, ?_, ?_⟩
  · have hfI : itemsToInsertOf (sortById (xs ++ d :: ys))
        = itemsToInsertOf (sortById (xs ++ ys)) :=
      filter_sortById_erase_middle _ xs ys d (by simp [h2])
    have hfU : itemsToUpdateOf (sortById (xs ++ d :: ys))
        = itemsToUpdateOf (sortById (xs ++ ys)) :=
      filter_sortById_erase_middle _ xs ys d (by simp [h2])
    have hfD : itemsToDeleteOf (sortById (xs ++ d :: ys))
        = itemsToDeleteOf (sortById (xs ++ ys)) :=
      filter_sortById_erase_middle _ xs ys d (by simp [h1])
    have hcm : resolveCommon (sortById (xs ++ d :: ys)) today
        = resolveCommon (sortById (xs ++ ys)) today := by
      rw [resolveCommon, resolveCommon,
        filter_sortById_erase_middle _ xs ys d (by simp [h2])]
    have hE1 : (sortById (xs ++ d :: ys)).isEmpty = false := by
      rcases hE : (sortById (xs ++ d :: ys)).isEmpty with _ | _
      · rfl
      · exact absurd (sortById_isEmpty_iff.mp hE) (by simp)
    have hE2 : (sortById (xs ++ ys)).isEmpty = false := by
      rcases hE : (sortById (xs ++ ys)).isEmpty with _ | _
      · rfl
      · exact absurd (sortById_isEmpty_iff.mp hE) hne
    by_cases h0 : (jsTrim o == "") = true
    · simp [putOrdersByNumber, h0]
    · simp only [putOrdersByNumber, h0, hE1, hE2, Bool.false_eq_true, if_false,
        hfI, hfU, hfD, hcm]
  · exact fun hmem => by simpa [itemsToInsertOf, h2] using (List.mem_filter.mp hmem).2
  · exact fun hmem => by simpa [itemsToUpdateOf, h2] using (List.mem_filter.mp hmem).2
  · exact fun hmem => by simpa [itemsToDeleteOf, h1] using (List.mem_filter.mp hmem).2

/-- Counterexample for C10 as stated: a batch consisting only of a
`{_deleted: true}` descriptor without id is not equivalent to the empty
batch — it passes the nonempty check, succeeds, and its header broadcast
resets the order's headers, while the empty batch is rejected with the
store untouched. -/
theorem c10_counterexample :
    (putOrdersByNumber [sampleRowA 1 "P"] "A" [⟨none, true, []⟩] "2024-06-01").1.isOk
      = true ∧
    (putOrdersByNumber [sampleRowA 1 "P"] "A" ([] : List Descr) "2024-06-01").1.isOk
      = false ∧
    (putOrdersByNumber [sampleRowA 1 "P"] "A" [⟨none, true, []⟩] "2024-06-01").2
      ≠ [sampleRowA 1 "P"] ∧
    (putOrdersByNumber [sampleRowA 1 "P"] "A" ([] : List Descr) "2024-06-01").2
      = [sampleRowA 1 "P"] ∧
    truthyId ⟨none, true, []⟩ = false ∧
    (⟨none, true, []⟩ : Descr).deleted = true := by
  refine ⟨by decide, by decide, by decide, by decide, by decide, by decide⟩

/-- Witness for the amended C10: dropping a ghost descriptor from a
two-element batch leaves response and store unchanged. -/
theorem c10_ghost_descriptor_ignored_witness :
    putOrdersByNumber [sampleRowA 1 "P"] "A"
        ([⟨some 1, false, [("status", Value.vstr "x")]⟩] ++ (⟨none, true, []⟩ : Descr)
          :: ([] : List Descr)) "2024-06-01"
      = putOrdersByNumber [sampleRowA 1 "P"] "A"
          ([⟨some 1, false, [("status", Value.vstr "x")]⟩] ++ ([] : List Descr))
          "2024-06-01" :=
  (c10_ghost_descriptor_ignored [sampleRowA 1 "P"] "A" "2024-06-01"
    [⟨some 1, false, [("status", Value.vstr "x")]⟩] [] ⟨none, true, []⟩
    (by decide) (by decide) (by decide)).1

/-! The per-row reading of the update phase, and its idempotence
together with the header broadcast: the machinery behind the
resubmission claim. -/

theorem insertPhase_nil (s : List Row) (o : String) (cm : Common) :
    insertPhase s o cm [] = s := by
  simp [insertPhase, insertRows]

theorem rowUpdate_cons (o : String) (a : Descr) (t : List Descr) (r : Row) :
    rowUpdate o (a :: t) r = rowUpdate o t (rowStep o a r) := rfl

theorem skel_rowUpdate (o : String) (items : List Descr) (r : Row) :
    skel (rowUpdate o items r) = skel r := by
  induction items generalizing r with
  | nil => rfl
  | cons a t ih => rw [rowUpdate_cons, ih, skel_rowStep]

/-- A successful targeted update is the pointwise `rowStep`. -/
theorem updateOne_ok_eq {s s1 : List Row} {o : String} {item : Descr}
    (h : updateOne s o item = .ok s1) : s1 = s.map (rowStep o item) := by
  simp only [updateOne] at h
  split at h
  · rename_i hemp
    cases h
    refine ((List.map_congr_left fun r _ => ?_).trans (List.map_id _)).symm
    rw [rowStep, if_pos hemp]
    rfl
  · rename_i hemp
    split at h
    · cases h
    · cases h
      refine List.map_congr_left fun r _ => ?_
      rw [rowStep, if_neg hemp]

/-- A successful update phase is the pointwise `rowUpdate`. -/
theorem updatePhase_ok_eq {o : String} {oe : Bool} {items : List Descr}
    {s s2 : List Row} (h : updatePhase o oe s items = .ok s2) :
    s2 = s.map (rowUpdate o items) := by
  induction items generalizing s with
  | nil =>
      rw [updatePhase] at h
      cases h
      refine ((List.map_congr_left fun r _ => ?_).trans (List.map_id _)).symm
      rfl
  | cons a t ih =>
      rw [updatePhase] at h
      split at h
      · cases h
      · split at h
        · cases h
        · rename_i s1 hone
          rw [ih h, updateOne_ok_eq hone, List.map_map]
          exact List.map_congr_left fun r _ => rfl

/-- Two stores with equal skeletons decompose in parallel. -/
theorem map_skel_cons {r : Row} {s t0 : List Row}
    (h : t0.map skel = (r :: s).map skel) :
    ∃ r2 t, t0 = r2 :: t ∧ skel r2 = skel r ∧ t.map skel = s.map skel := by
  cases t0 with
  | nil => cases h
  | cons r2 t =>
      rw [List.map_cons, List.map_cons] at h
      exact ⟨r2, t, rfl, (List.cons.injEq .. ▸ h).1, (List.cons.injEq .. ▸ h).2⟩

/-- The per-item ownership check only reads ids and order numbers. -/
theorem updateItemCheck_skel {s t : List Row} (o : String) (oe : Bool) (item : Descr)
    (hmap : t.map skel = s.map skel) :
    updateItemCheck t o oe item = updateItemCheck s o oe item := by
  cases oe with
  | false => rfl
  | true =>
      induction s generalizing t with
      | nil =>
          have ht : t = [] := by simpa using hmap
          subst ht
          rfl
      | cons r s ih =>
          obtain ⟨r2, t1, rfl, hsk, hrest⟩ := map_skel_cons hmap
          have hid : r2.id = r.id := congrArg Prod.fst hsk
          have hor : r2.cols .order_no = r.cols .order_no := congrArg Prod.snd hsk
          by_cases hfind : (r.id == idKey item) = true
          · have hfind2 : (r2.id == idKey item) = true := by rw [hid]; exact hfind
            have e1 : List.find? (fun rr => rr.id == idKey item) (r2 :: t1) = some r2 :=
              List.find?_cons_of_pos _ hfind2
            have e2 : List.find? (fun rr => rr.id == idKey item) (r :: s) = some r :=
              List.find?_cons_of_pos _ hfind
            simp [updateItemCheck, e1, e2, hor]
          · have hfind2 : ¬(r2.id == idKey item) = true := by rw [hid]; exact hfind
            have e1 : List.find? (fun rr => rr.id == idKey item) (r2 :: t1)
                = List.find? (fun rr => rr.id == idKey item) t1 :=
              List.find?_cons_of_neg _ hfind2
            have e2 : List.find? (fun rr => rr.id == idKey item) (r :: s)
                = List.find? (fun rr => rr.id == idKey item) s :=
              List.find?_cons_of_neg _ hfind
            have hrec := ih hrest
            simp only [updateItemCheck] at hrec ⊢
            rw [e1, e2]
            simpa using hrec

/-- Filter counts that only read ids and order numbers transport along
equal skeletons. -/
theorem length_filter_skel {s t : List Row} (hmap : t.map skel = s.map skel)
    (P : Int × Value → Bool) :
    (t.filter (fun r => P (skel r))).length = (s.filter (fun r => P (skel r))).length := by
  have h1 : ∀ u : List Row,
      (u.filter (fun r => P (skel r))).length = (u.map skel).countP P := by
    intro u
    rw [← List.countP_eq_length_filter, List.countP_map]
    rfl
  rw [h1, h1, hmap]

/-- A targeted update that succeeded still succeeds on a store with the
same ids and order numbers. -/
theorem updateOne_ok_transport {s s1 t : List Row} {o : String} {item : Descr}
    (hmap : t.map skel = s.map skel) (h : updateOne s o item = .ok s1) :
    updateOne t o item = .ok (if (filterAllowed item.fields).isEmpty then t
      else t.map (rowStep o item)) := by
  simp only [updateOne] at h ⊢
  split
  · rfl
  · rename_i hemp
    rw [if_neg hemp] at h
    split at h
    · cases h
    · have hcnt : (t.filter (fun r => r.id == idKey item
          && r.cols .order_no == Value.vstr o)).length
          = (s.filter (fun r => r.id == idKey item
              && r.cols .order_no == Value.vstr o)).length :=
        length_filter_skel hmap (fun pr => pr.1 == idKey item && pr.2 == Value.vstr o)
      rename_i hhits
      cases h
      rw [if_neg (by rw [hcnt]; exact hhits)]
      congr 1
      refine List.map_congr_left fun r _ => ?_
      rw [rowStep, if_neg hemp]

/-- The whole update phase still succeeds on a store with the same ids
and order numbers. -/
theorem updatePhase_ok_transport {o : String} {oe : Bool} {items : List Descr}
    {s s2 t : List Row} (hmap : t.map skel = s.map skel)
    (h : updatePhase o oe s items = .ok s2) :
    ∃ t2, updatePhase o oe t items = .ok t2 := by
  induction items generalizing s t with
  | nil => exact ⟨t, rfl⟩
  | cons a tl ih =>
      rw [updatePhase] at h ⊢
      rw [updateItemCheck_skel o oe a hmap]
      split at h
      · cases h
      · split at h
        · cases h
        · rename_i s1 hone
          rw [updateOne_ok_transport hmap hone]
          have hskel1 : (if (filterAllowed a.fields).isEmpty then t
              else t.map (rowStep o a)).map skel = s1.map skel := by
            rw [updateOne_ok_skel hone]
            split
            · exact hmap
            · rw [List.map_map]
              calc t.map (skel ∘ rowStep o a) = t.map skel :=
                    List.map_congr_left fun r _ => skel_rowStep o a r
                _ = s.map skel := hmap
          exact ih hskel1 h

/-- Order existence only reads order numbers. -/
theorem orderExists_skel {s t : List Row} (o : String)
    (hmap : t.map skel = s.map skel) : orderExists t o = orderExists s o := by
  induction s generalizing t with
  | nil =>
      have ht : t = [] := by simpa using hmap
      subst ht
      rfl
  | cons r s ih =>
      obtain ⟨r2, t1, rfl, hsk, hrest⟩ := map_skel_cons hmap
      have hor : r2.cols .order_no = r.cols .order_no := congrArg Prod.snd hsk
      have hrec := ih hrest
      simp only [orderExists, List.any_cons] at hrec ⊢
      rw [hor, hrec]

theorem id_broadcastRow (o : String) (cm : Common) (r : Row) :
    (broadcastRow o cm r).id = r.id :=
  congrArg Prod.fst (skel_broadcastRow o cm r)

theorem order_broadcastRow (o : String) (cm : Common) (r : Row) :
    (broadcastRow o cm r).cols .order_no = r.cols .order_no :=
  congrArg Prod.snd (skel_broadcastRow o cm r)

theorem id_rowUpdate (o : String) (items : List Descr) (r : Row) :
    (rowUpdate o items r).id = r.id :=
  congrArg Prod.fst (skel_rowUpdate o items r)

theorem order_rowUpdate (o : String) (items : List Descr) (r : Row) :
    (rowUpdate o items r).cols .order_no = r.cols .order_no :=
  congrArg Prod.snd (skel_rowUpdate o items r)

theorem id_rowStep (o : String) (item : Descr) (r : Row) :
    (rowStep o item r).id = r.id :=
  congrArg Prod.fst (skel_rowStep o item r)

theorem order_rowStep (o : String) (item : Descr) (r : Row) :
    (rowStep o item r).cols .order_no = r.cols .order_no :=
  congrArg Prod.snd (skel_rowStep o item r)

theorem rowStep_of_no_match {o : String} {item : Descr} {r : Row}
    (h : ¬(r.cols .order_no == Value.vstr o) = true) : rowStep o item r = r := by
  rw [rowStep]
  split
  · rfl
  · rw [if_neg]
    intro hc
    rw [Bool.and_eq_true] at hc
    exact h hc.2

theorem rowUpdate_of_no_match {o : String} {items : List Descr} {r : Row}
    (h : ¬(r.cols .order_no == Value.vstr o) = true) : rowUpdate o items r = r := by
  induction items with
  | nil => rfl
  | cons a t ih => rw [rowUpdate_cons, rowStep_of_no_match h, ih]

theorem broadcastRow_of_no_match {o : String} {cm : Common} {r : Row}
    (h : ¬(r.cols .order_no == Value.vstr o) = true) : broadcastRow o cm r = r := by
  rw [broadcastRow, if_neg h]

theorem cols_broadcastRow_match {o : String} {cm : Common} {r : Row}
    (h : (r.cols .order_no == Value.vstr o) = true) (c : Column) :
    (broadcastRow o cm r).cols c = (headerVal cm c).getD (r.cols c) := by
  rw [broadcastRow, if_pos h]
  rfl

/-- Columnwise reading of the whole update phase on a matching row: the
last applied assignment wins, other columns keep their value. -/
theorem cols_rowUpdate {o : String} (items : List Descr) {r : Row} {i : Int}
    (hid : r.id = i) (ho : (r.cols .order_no == Value.vstr o) = true) (c : Column) :
    (rowUpdate o items r).cols c = (lastAssignRow i items c).getD (r.cols c) := by
  induction items generalizing r with
  | nil => rfl
  | cons item rest ih =>
      rw [rowUpdate_cons]
      have hid2 : (rowStep o item r).id = i := by
        rw [id_rowStep]
        exact hid
      have ho2 : ((rowStep o item r).cols .order_no == Value.vstr o) = true := by
        rw [order_rowStep]
        exact ho
      rw [ih hid2 ho2]
      cases hla : lastAssignRow i rest c with
      | some v =>
          rw [show lastAssignRow i (item :: rest) c = some v by
            simp only [lastAssignRow, hla]]
          rfl
      | none =>
          rw [show lastAssignRow i (item :: rest) c
              = if !(filterAllowed item.fields).isEmpty && i == idKey item then
                  lastAssign (filterAllowed item.fields) c
                else none by
            simp only [lastAssignRow, hla]]
          rw [rowStep]
          by_cases hemp : (filterAllowed item.fields).isEmpty = true
          · rw [if_pos hemp, if_neg (by simp [hemp])]
          · rw [if_neg hemp]
            by_cases hcond : (r.id == idKey item
                && r.cols .order_no == Value.vstr o) = true
            · have hcond2 := hcond
              rw [Bool.and_eq_true] at hcond2
              have hc2 : (!(filterAllowed item.fields).isEmpty && i == idKey item)
                  = true := by
                rw [Bool.and_eq_true]
                refine ⟨by simpa using hemp, ?_⟩
                rw [← hid]
                exact hcond2.1
              rw [if_pos hcond, if_pos hc2, cols_setCols]
              rfl
            · have hc2 : ¬(!(filterAllowed item.fields).isEmpty && i == idKey item)
                  = true := by
                intro hc
                rw [Bool.and_eq_true] at hc
                refine hcond ?_
                rw [Bool.and_eq_true]
                refine ⟨?_, ho⟩
                rw [hid]
                exact hc.2
              rw [if_neg hcond, if_neg hc2]

/-- One update-plus-broadcast pass absorbs a preceding identical pass:
the row-level idempotence of resubmission. -/
theorem sandwich_row (o : String) (cm : Common) (upd : List Descr) (r : Row) :
    broadcastRow o cm (rowUpdate o upd (broadcastRow o cm (rowUpdate o upd r)))
      = broadcastRow o cm (rowUpdate o upd r) := by
  by_cases ho : (r.cols .order_no == Value.vstr o) = true
  · have hx_o : ((rowUpdate o upd r).cols .order_no == Value.vstr o) = true := by
      rw [order_rowUpdate]
      exact ho
    have hy_o : ((broadcastRow o cm (rowUpdate o upd r)).cols .order_no
        == Value.vstr o) = true := by
      rw [order_broadcastRow]
      exact hx_o
    have hz_o : ((rowUpdate o upd (broadcastRow o cm (rowUpdate o upd r))).cols .order_no
        == Value.vstr o) = true := by
      rw [order_rowUpdate]
      exact hy_o
    have hy_id : (broadcastRow o cm (rowUpdate o upd r)).id = r.id := by
      rw [id_broadcastRow, id_rowUpdate]
    refine Row.ext ?_ ?_
    · simp only [id_broadcastRow, id_rowUpdate]
    · funext c
      have e1 := @cols_broadcastRow_match o cm _ hz_o c
      have e2 := @cols_rowUpdate o upd _ _ hy_id hy_o c
      have e3 := @cols_broadcastRow_match o cm _ hx_o c
      have e4 := @cols_rowUpdate o upd _ _ rfl ho c
      rw [e1, e2, e3, e4]
      cases hH : headerVal cm c <;>
        cases hA : lastAssignRow r.id upd c <;>
          simp [hH, hA]
  · have h1 : rowUpdate o upd r = r := rowUpdate_of_no_match ho
    have h2 : broadcastRow o cm r = r := broadcastRow_of_no_match ho
    rw [h1, h2, h1, h2]

/-- C8.  For a batch in which every descriptor carries a persisted id
and none is marked deleted (no inserts, no deletes), resubmitting the
batch right after a successful reconciliation leaves the stored rows
exactly as the first run left them: the second run is a no-op on the
store. -/
theorem c8_resubmission_idempotent (store : List Row) (o : String) (body : List Descr)
    (today : String)
    (hall : ∀ d ∈ body, truthyId d = true ∧ d.deleted = false)
    (h : (putOrdersByNumber store o body today).1.isOk = true) :
    (putOrdersByNumber (putOrdersByNumber store o body today).2 o body today).2
      = (putOrdersByNumber store o body today).2 := by
  obtain ⟨hrt, htrim, hne⟩ := putOrdersByNumber_ok h
  have hins : itemsToInsertOf (sortById body) = [] := by
    rw [itemsToInsertOf, List.filter_eq_nil_iff]
    intro a ha
    simp [(hall a (mem_sortById.mp ha)).1]
  have hdel : itemsToDeleteOf (sortById body) = [] := by
    rw [itemsToDeleteOf, List.filter_eq_nil_iff]
    intro a ha
    simp [(hall a (mem_sortById.mp ha)).2]
  obtain ⟨s1, s1', hdp, hup, hcond, hs2⟩ := runTransaction_ok hrt
  rw [hdel] at hdp
  have hs1 : s1 = store := by
    simp only [deletePhase, List.isEmpty_nil, if_true] at hdp
    exact (Except.ok.injEq .. ▸ hdp).symm
  rw [hs1] at hup
  have hex : orderExists store o = true := by
    rw [hins] at hcond
    simpa using hcond
  rw [hins, insertPhase_nil] at hs2
  rw [hex] at hup
  have hs1'eq : s1' = store.map (rowUpdate o (itemsToUpdateOf (sortById body))) :=
    updatePhase_ok_eq hup
  have hS1eq : (putOrdersByNumber store o body today).2
      = store.map (fun r => broadcastRow o (resolveCommon (sortById body) today)
          (rowUpdate o (itemsToUpdateOf (sortById body)) r)) := by
    rw [hs2, hs1'eq, updateCommonDetails, List.map_map]
    exact List.map_congr_left fun r _ => rfl
  have hskelS1 : ((putOrdersByNumber store o body today).2).map skel
      = store.map skel := by
    rw [hS1eq, List.map_map]
    refine List.map_congr_left fun r _ => ?_
    show skel (broadcastRow o (resolveCommon (sortById body) today)
      (rowUpdate o (itemsToUpdateOf (sortById body)) r)) = skel r
    rw [skel_broadcastRow, skel_rowUpdate]
  have hex2 : orderExists ((putOrdersByNumber store o body today).2) o = true := by
    rw [orderExists_skel o hskelS1, hex]
  obtain ⟨t2, ht2⟩ := updatePhase_ok_transport hskelS1 hup
  have ht2eq : t2 = ((putOrdersByNumber store o body today).2).map
      (rowUpdate o (itemsToUpdateOf (sortById body))) := updatePhase_ok_eq ht2
  have hrt2 : runTransaction ((putOrdersByNumber store o body today).2) o
      (resolveCommon (sortById body) today) (itemsToInsertOf (sortById body))
      (itemsToUpdateOf (sortById body)) (itemsToDeleteOf (sortById body))
      = .ok (updateCommonDetails (((putOrdersByNumber store o body today).2).map
          (rowUpdate o (itemsToUpdateOf (sortById body)))) o
          (resolveCommon (sortById body) today)) := by
    rw [hins, hdel, ← ht2eq]
    simp [runTransaction, hex2, ht2, deletePhase, insertPhase_nil]
  generalize hgen : (putOrdersByNumber store o body today).2 = S1 at hS1eq hrt2 ⊢
  have hsnd2 : (putOrdersByNumber S1 o body today).2
      = updateCommonDetails (S1.map (rowUpdate o (itemsToUpdateOf (sortById body)))) o
        (resolveCommon (sortById body) today) := by
    simp [putOrdersByNumber, htrim, hne, hrt2]
  rw [hsnd2]
  conv_lhs => rw [hS1eq]
  conv_rhs => rw [hS1eq]
  rw [updateCommonDetails, List.map_map, List.map_map]
  refine List.map_congr_left fun r _ => ?_
  exact sandwich_row o (resolveCommon (sortById body) today)
    (itemsToUpdateOf (sortById body)) r

/-- Witness for C8: a concrete two-row order where resubmitting the
same all-update batch leaves the store of the first run unchanged. -/
theorem c8_resubmission_idempotent_witness :
    (putOrdersByNumber
      (putOrdersByNumber [sampleRowA 1 "P", sampleRowA 2 "Q"] "A"
        [⟨some 2, false, [("status", Value.vstr "y"), ("remarks", Value.vstr "r")]⟩,
         ⟨some 1, false, [("status", Value.vstr "x"), ("junk", Value.vnum 9)]⟩]
        "2024-06-01").2 "A"
      [⟨some 2, false, [("status", Value.vstr "y"), ("remarks", Value.vstr "r")]⟩,
       ⟨some 1, false, [("status", Value.vstr "x"), ("junk", Value.vnum 9)]⟩]
      "2024-06-01").2
    = (putOrdersByNumber [sampleRowA 1 "P", sampleRowA 2 "Q"] "A"
        [⟨some 2, false, [("status", Value.vstr "y"), ("remarks", Value.vstr "r")]⟩,
         ⟨some 1, false, [("status", Value.vstr "x"), ("junk", Value.vnum 9)]⟩]
        "2024-06-01").2 :=
  c8_resubmission_idempotent [sampleRowA 1 "P", sampleRowA 2 "Q"] "A"
    [⟨some 2, false, [("status", Value.vstr "y"), ("remarks", Value.vstr "r")]⟩,
     ⟨some 1, false, [("status", Value.vstr "x"), ("junk", Value.vnum 9)]⟩]
    "2024-06-01" (by decide) (by decide)

end Castolin
